import Mathlib

/-!
Dashboard client: the edit and render pipeline of `Static/Js/dashboard.js`.

A shallow embedding of the functions of `dashboard.js` that read, render and edit the
extraction record and the verification result, followed by the properties proved of them.

Conventions of the embedding.

* A JavaScript value that comes from `JSON.parse` is a `JVal`; `undefined` is `none` in
  `Option JVal`.  A number is kept as the text `String(n)` gives for it (`87`, `87.5`,
  `1e+21`): the program reads nothing of a number but its truthiness and that text.
* A statement that may raise returns `Res`; `Fault.typeError` is a raised `TypeError`.
  `Fault.nonJson` is not an exception of the program: it marks the point where a run leaves
  the values the embedding covers (a member inherited from a built-in prototype is read, an
  array gets a hole, an extra property or a new length, a prototype is replaced).  The
  embedding stops there and no property is stated of such a run.
* `String(v)`, a template literal and `textContent = v` convert `v` to text; the conversion
  raises a `TypeError` on an object that owns a member `toString` (a JSON value is never
  callable) and on an array that holds such an object.
* The built-in prototypes are those of ECMAScript 2025 with its Annex B, unmodified.  The
  member names the program itself writes (`pages`, `content`, `text`, `value`, ...) are names
  of no built-in prototype, so a read of one of them sees own members only (`getU`); the
  keys of a dotted path are arbitrary, and the walk of `setValueByPath` reads them with
  `getProp`, which tells an inherited member from a missing one.
* The DOM is modelled by the nodes the code creates, with the texts it interpolates; CSS and
  class names are left out.  A control created through `innerHTML` is read off its template
  when the interpolated path and label hold no character that the HTML parser treats
  specially at that place; otherwise the node is kept as the markup the code assigns
  (`FormNode.raw`), which the embedding does not parse.
* The script is a classic script without a strict-mode directive, so a store to a property
  of a primitive is silently dropped.
-/

namespace Dashboard

/-! ## JSON values -/

/-- A JSON number, kept as the text `String(n)` gives for it: the shortest decimal form of the
double, such as `87`, `87.5`, `-3` or `1e+21`.  Zero, of either sign, has the text `0`. -/
structure JNum where
  text : String
  deriving DecidableEq

namespace JNum

/-- The number a count or a numeral denotes; below `10^21` the text of an integer is its
plain decimal numeral. -/
def ofNat (n : Nat) : JNum := ⟨toString n⟩

instance (n : Nat) : OfNat JNum n := ⟨ofNat n⟩

/-- JavaScript truthiness of a number that `JSON.parse` can yield: all but zero. -/
def nonzero (n : JNum) : Bool := n.text != "0"

end JNum

/-- JSON values as produced by `JSON.parse`; object fields are kept in `Object.entries`
order. -/
inductive JVal where
  | null : JVal
  | bool (b : Bool) : JVal
  | num (n : JNum) : JVal
  | str (s : String) : JVal
  | arr (xs : List JVal) : JVal
  | obj (fields : List (String × JVal)) : JVal

namespace JVal

mutual
/-- Decision procedure for equality of JSON values. -/
def decEq : (a b : JVal) → Decidable (a = b)
  | null, null => isTrue rfl
  | bool a, bool b =>
    if h : a = b then isTrue (by rw [h]) else isFalse (by intro e; cases e; exact h rfl)
  | num a, num b =>
    if h : a = b then isTrue (by rw [h]) else isFalse (by intro e; cases e; exact h rfl)
  | str a, str b =>
    if h : a = b then isTrue (by rw [h]) else isFalse (by intro e; cases e; exact h rfl)
  | arr xs, arr ys =>
    match decEqList xs ys with
    | isTrue h => isTrue (by rw [h])
    | isFalse h => isFalse (by intro e; cases e; exact h rfl)
  | obj fs, obj gs =>
    match decEqFields fs gs with
    | isTrue h => isTrue (by rw [h])
    | isFalse h => isFalse (by intro e; cases e; exact h rfl)
  | null, bool _ | null, num _ | null, str _ | null, arr _ | null, obj _ =>
    isFalse (by intro e; cases e)
  | bool _, null | bool _, num _ | bool _, str _ | bool _, arr _ | bool _, obj _ =>
    isFalse (by intro e; cases e)
  | num _, null | num _, bool _ | num _, str _ | num _, arr _ | num _, obj _ =>
    isFalse (by intro e; cases e)
  | str _, null | str _, bool _ | str _, num _ | str _, arr _ | str _, obj _ =>
    isFalse (by intro e; cases e)
  | arr _, null | arr _, bool _ | arr _, num _ | arr _, str _ | arr _, obj _ =>
    isFalse (by intro e; cases e)
  | obj _, null | obj _, bool _ | obj _, num _ | obj _, str _ | obj _, arr _ =>
    isFalse (by intro e; cases e)
/-- Decision procedure for equality of arrays. -/
def decEqList : (xs ys : List JVal) → Decidable (xs = ys)
  | [], [] => isTrue rfl
  | [], _ :: _ => isFalse (by intro e; cases e)
  | _ :: _, [] => isFalse (by intro e; cases e)
  | x :: xs, y :: ys =>
    match decEq x y, decEqList xs ys with
    | isTrue h, isTrue t => isTrue (by rw [h, t])
    | isFalse h, _ => isFalse (by intro e; cases e; exact h rfl)
    | _, isFalse t => isFalse (by intro e; cases e; exact t rfl)
/-- Decision procedure for equality of field lists. -/
def decEqFields : (xs ys : List (String × JVal)) → Decidable (xs = ys)
  | [], [] => isTrue rfl
  | [], _ :: _ => isFalse (by intro e; cases e)
  | _ :: _, [] => isFalse (by intro e; cases e)
  | (k, x) :: xs, (l, y) :: ys =>
    if hk : k = l then
      match decEq x y, decEqFields xs ys with
      | isTrue h, isTrue t => isTrue (by rw [hk, h, t])
      | isFalse h, _ => isFalse (by intro e; cases e; exact h rfl)
      | _, isFalse t => isFalse (by intro e; cases e; exact t rfl)
    else isFalse (by intro e; cases e; exact hk rfl)
end

instance : DecidableEq JVal := decEq

/-- JavaScript `typeof v === 'object'`: true of null, arrays and objects. -/
def typeofObject : JVal → Bool
  | null => true
  | arr _ => true
  | obj _ => true
  | _ => false

/-- JavaScript `Array.isArray(v)`. -/
def isArray : JVal → Bool
  | arr _ => true
  | _ => false

/-- A leaf of a record: a value that is neither an array nor an object. -/
def isLeaf : JVal → Bool
  | arr _ => false
  | obj _ => false
  | _ => true

/-- JavaScript truthiness (`ToBoolean`) of a JSON value. -/
def truthy : JVal → Bool
  | null => false
  | bool b => b
  | num n => n.nonzero
  | str s => s != ""
  | arr _ => true
  | obj _ => true

mutual
/-- The text JavaScript `ToString(v)` yields when it completes: the text a template literal,
`String(v)` or `textContent` shows for `v`. -/
def toStr : JVal → String
  | null => "null"
  | bool b => if b then "true" else "false"
  | num n => n.text
  | str s => s
  | arr xs => String.intercalate "," (joinParts xs)
  | obj _ => "[object Object]"
/-- The pieces `Array.prototype.join` concatenates: null elements give the empty string. -/
def joinParts : List JVal → List String
  | [] => []
  | null :: xs => "" :: joinParts xs
  | x :: xs => toStr x :: joinParts xs
end

mutual
/-- JavaScript `ToString(v)` raises a `TypeError`: `v` is an object that owns a member
`toString` (which hides `Object.prototype.toString` and, coming from JSON, is not callable,
while `valueOf` returns the object itself), or an array with an element, not null, whose
conversion raises. -/
def toStringRaises : JVal → Bool
  | obj fs => fs.any (fun kv => kv.1 = "toString")
  | arr xs => anyRaises xs
  | _ => false
/-- Some element of the array makes `Array.prototype.join` raise. -/
def anyRaises : List JVal → Bool
  | [] => false
  | x :: xs => toStringRaises x || anyRaises xs
end

end JVal

open JVal

/-- JavaScript truthiness of a possibly undefined value. -/
def truthyU : Option JVal → Bool
  | none => false
  | some v => v.truthy

/-- The conversion to text of a possibly undefined value raises (`undefined` gives the text
`undefined`). -/
def raisesU : Option JVal → Bool
  | none => false
  | some v => v.toStringRaises

/-- JavaScript `a || b` where `b` is a JSON value. -/
def orElse (a : Option JVal) (b : JVal) : JVal :=
  match a with
  | some v => if v.truthy then v else b
  | none => b

/-! ## Results and faults -/

/-- The ways a step can leave normal execution: a raised `TypeError`, or a step that leaves
the values the embedding covers. -/
inductive Fault where
  | typeError : Fault
  | nonJson : Fault
  deriving DecidableEq, Repr

/-- Result of a statement that may raise. -/
inductive Res (α : Type) where
  | ok (a : α) : Res α
  | fail (f : Fault) : Res α
  deriving DecidableEq

/-! ## Property access -/

/-- The array index a property name denotes: a canonical decimal numeral below `2^32 - 1`. -/
def parseIndex (s : String) : Option Nat :=
  match s.data with
  | [] => none
  | c :: cs =>
    if (c :: cs).all Char.isDigit && (c != '0' || cs.isEmpty) then
      let n := (c :: cs).foldl (fun a d => 10 * a + (d.toNat - 48)) 0
      if n < 4294967295 then some n else none
    else none

/-- UTF-16 code units of a string, each as a one-unit string: a character outside the
Basic Multilingual Plane counts for two units; half a surrogate pair is not a character and
is shown as U+FFFD. -/
def codeUnits : List Char → List JVal
  | [] => []
  | c :: cs =>
    if c.toNat < 65536 then .str (String.singleton c) :: codeUnits cs
    else .str (String.singleton (Char.ofNat 65533)) ::
      .str (String.singleton (Char.ofNat 65533)) :: codeUnits cs

/-- JavaScript `s.length`. -/
def jsLength (s : String) : Nat := (codeUnits s.data).length

/-- First value stored under key `k` in a field list. -/
def lookupKey : List (String × JVal) → String → Option JVal
  | [], _ => none
  | (a, x) :: fs, k => if a = k then some x else lookupKey fs k

/-- Entries of an array or of a string: the elements under their decimal indices. -/
def indexed : Nat → List JVal → List (String × JVal)
  | _, [] => []
  | i, x :: xs => (toString i, x) :: indexed (i + 1) xs

/-- The own members of a value that is not null: the members of an object, the elements and
`length` of an array, the code units and `length` of a string.  An element is named by its
index written in decimal.  This is JavaScript `ref.k` for every name `k` that is a member of
no built-in prototype, which is the case of every member name the program writes; `getProp`
is the read of an arbitrary key. -/
def getU : JVal → String → Option JVal
  | .str s, k =>
    match lookupKey (indexed 0 (codeUnits s.data)) k with
    | some c => some c
    | none => if k = "length" then some (.num (JNum.ofNat (jsLength s))) else none
  | .arr xs, k =>
    match lookupKey (indexed 0 xs) k with
    | some x => some x
    | none => if k = "length" then some (.num (JNum.ofNat xs.length)) else none
  | .obj fs, k => lookupKey fs k
  | _, _ => none

/-- Names of the members of `Object.prototype`. -/
def objectPrototype : List String :=
  ["constructor", "hasOwnProperty", "isPrototypeOf", "propertyIsEnumerable", "toLocaleString",
    "toString", "valueOf", "__proto__", "__defineGetter__", "__defineSetter__",
    "__lookupGetter__", "__lookupSetter__"]

/-- Names of the members of `Array.prototype`. -/
def arrayPrototype : List String :=
  ["at", "concat", "constructor", "copyWithin", "entries", "every", "fill", "filter", "find",
    "findIndex", "findLast", "findLastIndex", "flat", "flatMap", "forEach", "includes",
    "indexOf", "join", "keys", "lastIndexOf", "map", "pop", "push", "reduce", "reduceRight",
    "reverse", "shift", "slice", "some", "sort", "splice", "toLocaleString", "toReversed",
    "toSorted", "toSpliced", "toString", "unshift", "values", "with"]

/-- Names of the members of `String.prototype`, Annex B included. -/
def stringPrototype : List String :=
  ["at", "charAt", "charCodeAt", "codePointAt", "concat", "constructor", "endsWith",
    "includes", "indexOf", "isWellFormed", "lastIndexOf", "localeCompare", "match", "matchAll",
    "normalize", "padEnd", "padStart", "repeat", "replace", "replaceAll", "search", "slice",
    "split", "startsWith", "substring", "toLocaleLowerCase", "toLocaleUpperCase",
    "toLowerCase", "toString", "toUpperCase", "toWellFormed", "trim", "trimEnd", "trimStart",
    "valueOf", "substr", "anchor", "big", "blink", "bold", "fixed", "fontcolor", "fontsize",
    "italics", "link", "small", "strike", "sub", "sup", "trimLeft", "trimRight"]

/-- Names of the members of `Number.prototype`. -/
def numberPrototype : List String :=
  ["constructor", "toExponential", "toFixed", "toLocaleString", "toPrecision", "toString",
    "valueOf"]

/-- Names of the members of `Boolean.prototype`. -/
def booleanPrototype : List String := ["constructor", "toString", "valueOf"]

/-- The names a value inherits from its prototype chain. -/
def inheritedNames : JVal → List String
  | .null => []
  | .bool _ => booleanPrototype ++ objectPrototype
  | .num _ => numberPrototype ++ objectPrototype
  | .str _ => stringPrototype ++ objectPrototype
  | .arr _ => arrayPrototype ++ objectPrototype
  | .obj _ => objectPrototype

/-- JavaScript `ref[k]` as a read, for an arbitrary key: reading a property of null raises a
`TypeError`; an own member is returned; a member inherited from a built-in prototype is a
function or a prototype object, which is no JSON value; any other name reads as
`undefined`. -/
def getProp : JVal → String → Res (Option JVal)
  | .null, _ => .fail .typeError
  | v, k =>
    match getU v k with
    | some x => .ok (some x)
    | none => if (inheritedNames v).contains k then .fail .nonJson else .ok none

/-- The member names the program itself writes in a read of a value that came from the
response: none of them is a member of a built-in prototype. -/
def memberNames : List String :=
  ["success", "message", "extracted_data", "extracted_text", "filename", "total_pages",
    "tables_count", "images_count", "pages", "length", "page_number", "content", "type",
    "value", "base64", "format", "image_number", "record_id", "text", "tables", "images",
    "verification", "overall_score", "is_authentic", "confidence_level", "checks", "passed",
    "score", "details", "error"]

/-- Replace the first value stored under `k`. -/
def replaceKey : List (String × JVal) → String → JVal → List (String × JVal)
  | [], _, _ => []
  | (a, x) :: fs, k, v => if a = k then (a, v) :: fs else (a, x) :: replaceKey fs k v

/-- Add a new own property: array-index names are kept first in ascending order, other
names go to the end (the order `Object.entries` uses). -/
def insertKey : List (String × JVal) → String → JVal → List (String × JVal)
  | [], k, v => [(k, v)]
  | (a, x) :: fs, k, v =>
    match parseIndex k, parseIndex a with
    | some i, some j => if i < j then (k, v) :: (a, x) :: fs else (a, x) :: insertKey fs k v
    | some _, none => (k, v) :: (a, x) :: fs
    | none, _ => (a, x) :: insertKey fs k v

/-- Replace the element named `k` in an array whose first element has index `i`. -/
def setIndexed : List JVal → Nat → String → JVal → List JVal
  | [], _, _, _ => []
  | x :: xs, i, k, v => if toString i = k then v :: xs else x :: setIndexed xs (i + 1) k v

/-- JavaScript `ref[k] = v` as the final store of `setValueByPath`.  A store to null raises
a `TypeError`.  A store to a property of a primitive is dropped.  A store to an array under
a name that is not one of its indices leaves the JSON fragment (a hole, an extra property, a
new length, or a `RangeError`).  A store to an object replaces the own member `k`, or adds
it; when the object owns no `__proto__`, a store under that name runs the setter of
`Object.prototype`, which ignores a primitive and otherwise replaces the prototype. -/
def putProp : JVal → String → JVal → Res JVal
  | .null, _, _ => .fail .typeError
  | .bool b, _, _ => .ok (.bool b)
  | .num n, _, _ => .ok (.num n)
  | .str s, _, _ => .ok (.str s)
  | .arr xs, k, v =>
    match lookupKey (indexed 0 xs) k with
    | some _ => .ok (.arr (setIndexed xs 0 k v))
    | none => .fail .nonJson
  | .obj fs, k, v =>
    match lookupKey fs k with
    | some _ => .ok (.obj (replaceKey fs k v))
    | none =>
      if k = "__proto__" then
        if v.typeofObject then .fail .nonJson else .ok (.obj fs)
      else .ok (.obj (insertKey fs k v))

/-- The record after the member reached by `ref = ref[k]` has been updated in place: the
update is visible in `node` when `node` is an object or an array, and lost when `node` is a
primitive. -/
def setChild : JVal → String → JVal → JVal
  | .arr xs, k, c => .arr (setIndexed xs 0 k c)
  | .obj fs, k, c => .obj (replaceKey fs k c)
  | v, _, _ => v

/-! ## setValueByPath -/

/-- Splitting at dots: the first segment and the remaining segments. -/
def splitDots : List Char → List Char × List (List Char)
  | [] => ([], [])
  | c :: cs =>
    let r := splitDots cs
    if c = '.' then ([], r.1 :: r.2) else (c :: r.1, r.2)

/-- JavaScript `path.split('.')`. -/
def splitPath (path : String) : List String :=
  String.mk (splitDots path.data).1 :: (splitDots path.data).2.map String.mk

/-- The loop and the final store of `setValueByPath`, on the value `ref` points to: every
key but the last is read (`ref = ref[keys[i]]`), the last one is stored to.  The store goes
through the reference, so the result is the node with the member on the way rebuilt. -/
def assignPath : JVal → List String → JVal → Res JVal
  | node, [], v => putProp node "undefined" v
  | node, [k], v => putProp node k v
  | node, k :: k2 :: ks, v =>
    match getProp node k with
    | .fail f => .fail f
    | .ok none => .fail .typeError
    | .ok (some c) =>
      match assignPath c (k2 :: ks) v with
      | .fail f => .fail f
      | .ok c2 => .ok (setChild node k c2)

/-- State of the record after a statement, with the fault it raised, if any. -/
structure Run where
  data : JVal
  fault : Option Fault
  deriving DecidableEq

/-- Source function `setValueByPath(obj, path, value)`: the only store is the last
statement, so a fault leaves `obj` as it was. -/
def setValueByPath (obj : JVal) (path : String) (value : JVal) : Run :=
  match assignPath obj (splitPath path) value with
  | .ok r => ⟨r, none⟩
  | .fail f => ⟨obj, some f⟩

/-- The value `ref` holds after reading the keys one after the other, as the loop of
`setValueByPath` does. -/
def readPath : Option JVal → List String → Res (Option JVal)
  | r, [] => .ok r
  | none, _ :: _ => .fail .typeError
  | some v, k :: ks =>
    match getProp v k with
    | .ok r => readPath r ks
    | .fail f => .fail f

/-- Member of an object or element of an array named by a path segment. -/
def child : JVal → String → Option JVal
  | .obj fs, k => lookupKey fs k
  | .arr xs, k => lookupKey (indexed 0 xs) k
  | _, _ => none

/-- The value a list of segments addresses in a record, when every segment resolves. -/
def lookupPath : JVal → List String → Option JVal
  | v, [] => some v
  | v, k :: ks =>
    match child v k with
    | some c => lookupPath c ks
    | none => none

/-- The leaf a list of segments addresses, if it addresses one. -/
def leafAt (r : JVal) (q : List String) : Option JVal :=
  match lookupPath r q with
  | some v => if v.isLeaf then some v else none
  | none => none

/-! ## Field names and eligibility -/

/-- Regular-expression class `\w`. -/
def isWordChar (c : Char) : Bool := c.isAlphanum || c = '_'

/-- Effect of `.replace(/\b\w/g, c => c.toUpperCase())`: a word character that does not
follow a word character is upper-cased; the flag tells whether the previous character was a
word character. -/
def capitalizeWords : Bool → List Char → List Char
  | _, [] => []
  | prev, c :: cs =>
    (if isWordChar c && !prev then c.toUpper else c) :: capitalizeWords (isWordChar c) cs

/-- Source function `formatKey(key)`. -/
def formatKey (key : String) : String :=
  String.mk (capitalizeWords false (key.data.map (fun c => if c = '_' then ' ' else c)))

/-- The fixed list of field names `shouldSkipEditField` excludes. -/
def denylist : List String :=
  ["_id", "user_id", "filename", "doc_type", "success", "message", "timestamp",
    "verification", "tables", "images"]

/-- Source function `shouldSkipEditField(key, value)`. -/
def shouldSkipEditField (key : String) (value : JVal) : Bool :=
  decide (value = .null) || value.typeofObject || denylist.contains key

/-- JavaScript `Object.entries(v)` on a value that is not null. -/
def objectEntries : JVal → List (String × JVal)
  | .obj fs => fs
  | .arr xs => indexed 0 xs
  | .str s => indexed 0 (codeUnits s.data)
  | _ => []

/-- JavaScript `Object.keys(v)` on a value that is not null. -/
def objectKeys (v : JVal) : List String := (objectEntries v).map Prod.fst

/-! ## Edit form -/

/-- JavaScript `s.replace(/c/g, sub)` for a pattern of one character. -/
def replaceAll (c : Char) (sub : String) (s : List Char) : List Char :=
  s.flatMap (fun d => if d = c then sub.data else [d])

/-- The four replacements of `escapeHtml`, in the order of the source. -/
def escapeText (s : String) : String :=
  String.mk
    (replaceAll (Char.ofNat 34) "&quot;"
      (replaceAll '>' "&gt;" (replaceAll '<' "&lt;" (replaceAll '&' "&amp;" s.data))))

/-- Source function `escapeHtml(text)`: `String(text)` may raise. -/
def escapeHtml (text : JVal) : Res String :=
  if text.toStringRaises then .fail .typeError else .ok (escapeText text.toStr)

/-- The markup `createInput` assigns to `div.innerHTML`. -/
def inputMarkup (path label escaped : String) : String :=
  "\n        <label class=\"form-label\">" ++ label ++ "</label>\n"
    ++ "        <input type=\"text\" class=\"form-control\" data-path=\"" ++ path
    ++ "\" value=\"" ++ escaped ++ "\">\n    "

/-- The markup `createTextarea` assigns to `div.innerHTML`. -/
def textareaMarkup (path label escaped : String) : String :=
  "\n        <label class=\"form-label\">" ++ label ++ "</label>\n"
    ++ "        <textarea class=\"form-control\" rows=\"4\" data-path=\"" ++ path ++ "\">"
    ++ escaped ++ "</textarea>\n    "

/-- The HTML parser takes the text as it stands inside a double-quoted attribute value: it
holds no double quote (which ends the value), no ampersand (which starts a character
reference), no U+0000 (which is replaced) and no carriage return (which is normalised). -/
def plainInAttr (s : String) : Bool :=
  s.data.all (fun c => c.toNat != 34 && c.toNat != 38 && c.toNat != 0 && c.toNat != 13)

/-- The HTML parser takes the text as it stands as the content of an element: it holds no
`<` (which starts a tag), no ampersand, no U+0000 and no carriage return. -/
def plainInText (s : String) : Bool :=
  s.data.all (fun c => c.toNat != 60 && c.toNat != 38 && c.toNat != 0 && c.toNat != 13)

/-- Newline normalisation of the parser input: a CR LF pair and a lone CR become LF; the
flag tells whether the previous character was a CR. -/
def normalizeNewlines : Bool → List Char → List Char
  | _, [] => []
  | prevCR, c :: cs =>
    if c.toNat = 13 then Char.ofNat 10 :: normalizeNewlines true cs
    else if c.toNat = 10 then
      if prevCR then normalizeNewlines false cs else c :: normalizeNewlines false cs
    else c :: normalizeNewlines false cs

/-- The text the parser reads back from the text `escapeHtml` has escaped: the character
references decode to the characters that were escaped, newlines are normalised and U+0000
becomes U+FFFD. -/
def parsedText (s : String) : List Char :=
  (normalizeNewlines false s.data).map (fun c => if c.toNat = 0 then Char.ofNat 65533 else c)

/-- The value of a text input whose `value` attribute holds the text: the input strips the
line breaks. -/
def inputValue (s : String) : String :=
  String.mk ((parsedText s).filter (fun c => c.toNat != 10 && c.toNat != 13))

/-- The value of a text area whose content is the text: the parser drops one line break
right after the start tag. -/
def textareaValue (s : String) : String :=
  String.mk
    (match parsedText s with
      | [] => []
      | c :: cs => if c.toNat = 10 then cs else c :: cs)

/-- Nodes that `buildEditForm` appends to the edit form.  A control holds its `data-path`,
the text of its label and its value.  `raw` is a `div` whose markup the embedding does not
parse, kept as the text assigned to `innerHTML`. -/
inductive FormNode where
  | title (text : String) : FormNode
  | textarea (path label value : String) (rows : Nat) : FormNode
  | input (path label value : String) : FormNode
  | raw (html : String) : FormNode
  deriving DecidableEq

/-- The edit form after `buildEditForm`, with the fault it raised, if any. -/
structure Built where
  nodes : List FormNode
  fault : Option Fault
  deriving DecidableEq

/-- Source function `createInput(path, label, value)`: the node appended to the form, or
the fault `escapeHtml` raises. -/
def createInput (path label : String) (value : JVal) : Res FormNode :=
  match escapeHtml value with
  | .fail f => .fail f
  | .ok escaped =>
    if plainInAttr path && plainInText label then
      .ok (.input path label (inputValue value.toStr))
    else .ok (.raw (inputMarkup path label escaped))

/-- Source function `createTextarea(path, label, value)`: the node appended to the form, or
the fault `escapeHtml` raises. -/
def createTextarea (path label : String) (value : JVal) : Res FormNode :=
  match escapeHtml value with
  | .fail f => .fail f
  | .ok escaped =>
    if plainInAttr path && plainInText label then
      .ok (.textarea path label (textareaValue value.toStr) 4)
    else .ok (.raw (textareaMarkup path label escaped))

/-- Body of the inner `forEach` of `buildEditForm` for one content item. -/
def itemControl (pIdx iIdx : Nat) (item : JVal) : Res (List FormNode) :=
  match item with
  | .null => .fail .typeError
  | item =>
    if getU item "type" = some (.str "text") && truthyU (getU item "value") then
      match getU item "value" with
      | some v =>
        match createTextarea
          ("pages." ++ toString pIdx ++ ".content." ++ toString iIdx ++ ".value")
          ("Text block " ++ toString (iIdx + 1)) v with
        | .fail f => .fail f
        | .ok n => .ok [n]
      | none => .ok []
    else .ok []

/-- The inner `forEach` of `buildEditForm` over the content items from index `iIdx` on. -/
def buildItems (pIdx : Nat) : Nat → List JVal → Built
  | _, [] => ⟨[], none⟩
  | iIdx, item :: rest =>
    match itemControl pIdx iIdx item with
    | .fail f => ⟨[], some f⟩
    | .ok ns => ⟨ns ++ (buildItems pIdx (iIdx + 1) rest).nodes,
        (buildItems pIdx (iIdx + 1) rest).fault⟩

/-- Body of the outer `forEach` of `buildEditForm` for one page: the title, whose text
`Page ${page.page_number || pIdx + 1}` may raise, then `page.content?.forEach(...)`. -/
def buildPage (pIdx : Nat) (page : JVal) : Built :=
  match page with
  | .null => ⟨[], some .typeError⟩
  | page =>
    if (orElse (getU page "page_number") (.num (JNum.ofNat (pIdx + 1)))).toStringRaises then
      ⟨[], some .typeError⟩
    else
      let title := FormNode.title
        ("Page " ++ (orElse (getU page "page_number") (.num (JNum.ofNat (pIdx + 1)))).toStr)
      match getU page "content" with
      | none => ⟨[title], none⟩
      | some .null => ⟨[title], none⟩
      | some (.arr items) => ⟨title :: (buildItems pIdx 0 items).nodes,
          (buildItems pIdx 0 items).fault⟩
      | some _ => ⟨[title], some .typeError⟩

/-- The outer `forEach` of `buildEditForm` over the pages from index `pIdx` on. -/
def buildPages : Nat → List JVal → Built
  | _, [] => ⟨[], none⟩
  | pIdx, page :: rest =>
    match buildPage pIdx page with
    | ⟨ns, some f⟩ => ⟨ns, some f⟩
    | ⟨ns, none⟩ => ⟨ns ++ (buildPages (pIdx + 1) rest).nodes,
        (buildPages (pIdx + 1) rest).fault⟩

/-- Body of the last `forEach` of `buildEditForm` for a field that is not skipped: a text
area for a string of more than 80 code units, a text input otherwise. -/
def fieldControl (key : String) (value : JVal) : Res FormNode :=
  match value with
  | .str s =>
    if jsLength s > 80 then createTextarea key (formatKey key) value
    else createInput key (formatKey key) value
  | _ => createInput key (formatKey key) value

/-- The last `forEach` of `buildEditForm`, over the entries of a flat record. -/
def buildFlat : List (String × JVal) → Built
  | [] => ⟨[], none⟩
  | (key, value) :: rest =>
    if shouldSkipEditField key value then buildFlat rest
    else
      match fieldControl key value with
      | .fail f => ⟨[], some f⟩
      | .ok n => ⟨n :: (buildFlat rest).nodes, (buildFlat rest).fault⟩

/-- Source function `buildEditForm(data, docType)`. -/
def buildEditForm (data : JVal) (docType : String) : Built :=
  match data with
  | .null =>
    -- `data.text` (contract mode) or `data.pages` is read first
    ⟨[], some .typeError⟩
  | data =>
    if docType = "contract" && truthyU (getU data "text") then
      match getU data "text" with
      | some t =>
        match escapeHtml t with
        | .fail f => ⟨[], some f⟩
        | .ok _ => ⟨[.textarea "text" "Extracted Text" (textareaValue t.toStr) 15], none⟩
      | none => ⟨[], none⟩
    else
      match getU data "pages" with
      | some (.arr pages) => buildPages 0 pages
      | _ => buildFlat (objectEntries data)

/-- An edit control as `applyEdits` sees it: its `data-path` and its current text. -/
structure Control where
  path : String
  value : String
  deriving DecidableEq

/-- JavaScript `editDataForm.querySelectorAll('[data-path]')`, in document order, on the
nodes that were read off their templates.  The controls that the parser finds in unparsed
markup are not listed: the controls of a form are stated only when `parsed` holds of it. -/
def controls : List FormNode → List Control
  | [] => []
  | .title _ :: ns => controls ns
  | .textarea path _ value _ :: ns => ⟨path, value⟩ :: controls ns
  | .input path _ value :: ns => ⟨path, value⟩ :: controls ns
  | .raw _ :: ns => controls ns

/-- No node of the form is unparsed markup. -/
def parsed : List FormNode → Bool
  | [] => true
  | .raw _ :: _ => false
  | _ :: ns => parsed ns

/-- Source function `applyEdits()`, on the editable record and the controls of the form: a
raised `TypeError` ends the `forEach`, the stores made before it stay.  The embedding stops
as well at a store that leaves the JSON fragment. -/
def applyEdits (data : JVal) : List Control → Run
  | [] => ⟨data, none⟩
  | c :: cs =>
    match setValueByPath data c.path (.str c.value) with
    | ⟨d, none⟩ => applyEdits d cs
    | ⟨d, some f⟩ => ⟨d, some f⟩

/-! ## Extraction renderer -/

/-- Lower-case hexadecimal digit. -/
def hexDigit (n : Nat) : Char :=
  if n < 10 then Char.ofNat (48 + n) else Char.ofNat (87 + n)

/-- The text `JSON.stringify` writes for one character of a string. -/
def quoteChar (c : Char) : List Char :=
  if c.toNat = 34 then [Char.ofNat 92, Char.ofNat 34]
  else if c.toNat = 92 then [Char.ofNat 92, Char.ofNat 92]
  else if c.toNat = 8 then [Char.ofNat 92, 'b']
  else if c.toNat = 12 then [Char.ofNat 92, 'f']
  else if c.toNat = 10 then [Char.ofNat 92, 'n']
  else if c.toNat = 13 then [Char.ofNat 92, 'r']
  else if c.toNat = 9 then [Char.ofNat 92, 't']
  else if c.toNat < 32 then
    [Char.ofNat 92, 'u', '0', '0', hexDigit (c.toNat / 16), hexDigit (c.toNat % 16)]
  else [c]

/-- The quoted form `JSON.stringify` gives a string. -/
def quoteJson (s : String) : String :=
  String.mk (Char.ofNat 34 :: (s.data.flatMap quoteChar ++ [Char.ofNat 34]))

mutual
/-- JavaScript `JSON.stringify(v, null, 2)` at the given current indentation. -/
def stringify (indent : String) : JVal → String
  | .null => "null"
  | .bool b => if b then "true" else "false"
  | .num n => if n.text = "Infinity" || n.text = "-Infinity" then "null" else n.text
  | .str s => quoteJson s
  | .arr xs =>
    if xs.isEmpty then "[]"
    else "[\n" ++ indent ++ "  " ++ stringifyElems (indent ++ "  ") xs ++ "\n" ++ indent ++ "]"
  | .obj fs =>
    if fs.isEmpty then "\x7b\x7d"
    else "\x7b\n" ++ indent ++ "  " ++ stringifyFields (indent ++ "  ") fs
      ++ "\n" ++ indent ++ "\x7d"
/-- Elements of an array, one per line. -/
def stringifyElems (indent : String) : List JVal → String
  | [] => ""
  | [x] => stringify indent x
  | x :: y :: rest =>
    stringify indent x ++ ",\n" ++ indent ++ stringifyElems indent (y :: rest)
/-- Members of an object, one per line. -/
def stringifyFields (indent : String) : List (String × JVal) → String
  | [] => ""
  | [(k, x)] => quoteJson k ++ ": " ++ stringify indent x
  | (k, x) :: y :: rest =>
    quoteJson k ++ ": " ++ stringify indent x ++ ",\n" ++ indent
      ++ stringifyFields indent (y :: rest)
end

/-- Text shown after `node.textContent = v`: null gives the empty text. -/
def textContent : JVal → String
  | .null => ""
  | v => v.toStr

/-- Arabic text detection: `typeof value === 'string'` and some character of the value lies
in the range U+0600 to U+06FF. -/
def isArabic : JVal → Bool
  | .str s => s.data.any (fun c => 1536 ≤ c.toNat && c.toNat ≤ 1791)
  | _ => false

/-- Nodes that `displayExtractedData` appends to its container. -/
inductive Node where
  | pre (text : String) : Node
  | pageBlock (title : String) (texts : List String) : Node
  | textBlock (text : String) (rtl : Bool) : Node
  | fieldRow (label value : String) (rtl mono : Bool) : Node
  deriving DecidableEq

/-- What the extraction display holds after `displayExtractedData`: the no-data notice, or
the container filled by the document branch or by the flat-record branch. -/
inductive Rendered where
  | noData : Rendered
  | document (nodes : List Node) : Rendered
  | flat (nodes : List Node) : Rendered
  deriving DecidableEq

/-- Body of the inner `forEach` of `displayExtractedData` for one content item: reading
`item.type` raises when the item is null; a text item with a truthy value appends its value
as text, which may raise; table and image items append nothing. -/
def renderItem (item : JVal) : Res (List String) :=
  match item with
  | .null => .fail .typeError
  | item =>
    if getU item "type" = some (.str "text") && truthyU (getU item "value") then
      match getU item "value" with
      | some v => if v.toStringRaises then .fail .typeError else .ok [textContent v]
      | none => .ok []
    else if getU item "type" = some (.str "table") then .ok []
    else if getU item "type" = some (.str "image") && truthyU (getU item "base64") then .ok []
    else .ok []

/-- The inner `forEach` of `displayExtractedData`. -/
def renderItems : List JVal → Res (List String)
  | [] => .ok []
  | item :: rest =>
    match renderItem item with
    | .fail f => .fail f
    | .ok ts =>
      match renderItems rest with
      | .fail f => .fail f
      | .ok us => .ok (ts ++ us)

/-- Body of the outer `forEach` of `displayExtractedData` for one page: a page whose
`content` is falsy is left out; the title `Page ${page.page_number || '?'}:` may raise;
`page.content.forEach` raises when the content is not an array. -/
def renderPage (page : JVal) : Res (List Node) :=
  match page with
  | .null => .fail .typeError
  | page =>
    if !truthyU (getU page "content") then .ok []
    else if (orElse (getU page "page_number") (.str "?")).toStringRaises then
      .fail .typeError
    else
      match getU page "content" with
      | some (.arr items) =>
        match renderItems items with
        | .fail f => .fail f
        | .ok ts =>
          .ok [.pageBlock
            ("Page " ++ (orElse (getU page "page_number") (.str "?")).toStr ++ ":") ts]
      | _ => .fail .typeError

/-- The outer `forEach` of `displayExtractedData`. -/
def renderPages : List JVal → Res (List Node)
  | [] => .ok []
  | page :: rest =>
    match renderPage page with
    | .fail f => .fail f
    | .ok ns =>
      match renderPages rest with
      | .fail f => .fail f
      | .ok ms => .ok (ns ++ ms)

/-- The `forEach` of the flat-record branch of `displayExtractedData`. -/
def renderFlat : List (String × JVal) → List Node
  | [] => []
  | (key, value) :: rest =>
    if shouldSkipEditField key value then renderFlat rest
    else if key = "text" then .textBlock (textContent value) (isArabic value) :: renderFlat rest
    else if value.typeofObject && decide (value ≠ .null) then
      .fieldRow (formatKey key) (stringify "" value) (isArabic value) true :: renderFlat rest
    else
      .fieldRow (formatKey key) (textContent value) (isArabic value) false :: renderFlat rest

/-- The dispatch test of `displayExtractedData`:
`(data.pages && Array.isArray(data.pages) && data.pages.length > 0) || data.text`. -/
def documentTest (data : JVal) : Bool :=
  (match getU data "pages" with
    | some (.arr ps) => decide (0 < ps.length)
    | _ => false) || truthyU (getU data "text")

/-- The first step of the document branch of `displayExtractedData`: a truthy `data.text`
is shown as text, which may raise. -/
def renderText (data : JVal) : Res (List Node) :=
  match getU data "text" with
  | some t =>
    if t.truthy then
      if t.toStringRaises then .fail .typeError else .ok [.pre (textContent t)]
    else .ok []
  | none => .ok []

/-- Source function `displayExtractedData(data, docType)`.  When a fault is raised the
container has not been attached, so nothing is rendered. -/
def displayExtractedData (data : JVal) (_docType : String) : Res Rendered :=
  if !data.truthy || (objectKeys data).isEmpty then .ok .noData
  else if documentTest data then
    match renderText data with
    | .fail f => .fail f
    | .ok textNodes =>
      match getU data "pages" with
      | some (.arr ps) =>
        match renderPages ps with
        | .fail f => .fail f
        | .ok ns => .ok (.document (textNodes ++ ns))
      | _ => .ok (.document textNodes)
  else .ok (.flat (renderFlat (objectEntries data)))

/-! ## Verification renderer -/

/-- One item of the list of checks. -/
structure CheckRow where
  passedBorder : Bool
  icon : String
  name : String
  details : String
  badgeClass : String
  points : String
  deriving DecidableEq

/-- Nodes that `displayVerificationResults` puts into the verification display. -/
inductive VBlock where
  | warning (html : String) : VBlock
  | scoreCard (icon status percent confidence : String) : VBlock
  | checksTitle : VBlock
  | checksList (rows : List CheckRow) : VBlock
  | errorAlert (html : String) : VBlock
  | notice : VBlock
  deriving DecidableEq

/-- The verification display after `displayVerificationResults`, with the fault raised. -/
structure VRun where
  blocks : List VBlock
  fault : Option Fault
  deriving DecidableEq

/-- The list item built for a check whose data is not null; `name`, `details` and `points`
are the texts interpolated into the markup of the item. -/
def checkRowOf (checkName : String) (checkData : JVal) : CheckRow :=
  let passed := orElse (getU checkData "passed") (.bool false)
  let score := orElse (getU checkData "score") (.num 0)
  let details := orElse (getU checkData "details") (.str "No details available")
  { passedBorder := truthyU (getU checkData "passed")
    icon := if passed.truthy then "✅" else "❌"
    name := formatKey checkName
    details := details.toStr
    badgeClass := if passed.truthy then "bg-success" else "bg-danger"
    points := score.toStr ++ " pts" }

/-- Body of the `forEach` over the checks for one entry: reading `checkData.passed` raises
when the entry is null, and the template raises when `details` or `score` does not convert
to text. -/
def checkRow (checkName : String) (checkData : JVal) : Res CheckRow :=
  match checkData with
  | .null => .fail .typeError
  | checkData =>
    if (orElse (getU checkData "details") (.str "No details available")).toStringRaises
        || (orElse (getU checkData "score") (.num 0)).toStringRaises then .fail .typeError
    else .ok (checkRowOf checkName checkData)

/-- The `forEach` over the entries of `results.checks`. -/
def checkRows : List (String × JVal) → Res (List CheckRow)
  | [] => .ok []
  | (name, cd) :: rest =>
    match checkRow name cd with
    | .fail f => .fail f
    | .ok r =>
      match checkRows rest with
      | .fail f => .fail f
      | .ok rs => .ok (r :: rs)

/-- The score card built from a structured result whose score and confidence level convert
to text. -/
def scoreCardOf (results : JVal) : VBlock :=
  let overallScore := orElse (getU results "overall_score") (.num 0)
  let isAuthentic := orElse (getU results "is_authentic") (.bool false)
  let confidenceLevel := orElse (getU results "confidence_level") (.str "low")
  .scoreCard (if isAuthentic.truthy then "✅" else "❌")
    (if isAuthentic.truthy then "Authentic" else "Not Authentic")
    (overallScore.toStr ++ "%") ("Confidence: " ++ confidenceLevel.toStr)

/-- The template of the score card raises: `overallScore` or `confidenceLevel` does not
convert to text. -/
def scoreCardRaises (results : JVal) : Bool :=
  (orElse (getU results "overall_score") (.num 0)).toStringRaises
    || (orElse (getU results "confidence_level") (.str "low")).toStringRaises

/-- The part of `displayVerificationResults` for `results.checks`: nothing when it is falsy
or has no entry; else the title, then the list, which is attached after all its rows have
been built. -/
def checksBlocks (results : JVal) : VRun :=
  match getU results "checks" with
  | none => ⟨[], none⟩
  | some checks =>
    if checks.truthy && !(objectKeys checks).isEmpty then
      match checkRows (objectEntries checks) with
      | .fail f => ⟨[.checksTitle], some f⟩
      | .ok rows => ⟨[.checksTitle, .checksList rows], none⟩
    else ⟨[], none⟩

/-- The optional danger banner for `results.error`; its template may raise. -/
def errorBlocks (results : JVal) : VRun :=
  match getU results "error" with
  | some e =>
    if e.truthy then
      if e.toStringRaises then ⟨[], some .typeError⟩
      else ⟨[.errorAlert ("<strong>⚠️ Error:</strong> " ++ e.toStr)], none⟩
    else ⟨[], none⟩
  | none => ⟨[], none⟩

/-- Source function `displayVerificationResults(results)`: the blocks attached to the
display, which was emptied first, and the fault raised, if any. -/
def displayVerificationResults (results : JVal) : VRun :=
  match results with
  | .arr xs =>
    if anyRaises xs then ⟨[], some .typeError⟩
    else
      ⟨[.warning ("<strong>⚠️ Verification Error:</strong><br>"
          ++ String.intercalate "<br>" (joinParts xs))], none⟩
  | .obj fs =>
    if scoreCardRaises (.obj fs) then ⟨[], some .typeError⟩
    else
      match checksBlocks (.obj fs) with
      | ⟨bs, some f⟩ => ⟨scoreCardOf (.obj fs) :: bs, some f⟩
      | ⟨bs, none⟩ =>
        ⟨scoreCardOf (.obj fs) :: (bs ++ (errorBlocks (.obj fs)).blocks),
          (errorBlocks (.obj fs)).fault⟩
  | _ => ⟨[.notice], none⟩

/-! ## Page state and event handlers -/

/-- A file chosen in a file input: only its name and MIME type matter here. -/
structure File where
  name : String
  type : String
  deriving DecidableEq

/-- What the preview area may hold. -/
inductive PreviewNode where
  | image (file : File) (maxHeight : Nat) : PreviewNode
  | pdfLoading : PreviewNode
  | pdfPages (shown total : Nat) : PreviewNode
  | pdfError : PreviewNode
  deriving DecidableEq

/-- What the verification display may hold: the blocks of `displayVerificationResults`
(none of them when it is empty), the no-verification paragraph, or the upload-failed
banner. -/
inductive VContent where
  | blocks (bs : List VBlock) : VContent
  | noVerification : VContent
  | uploadFailed (message : String) : VContent
  deriving DecidableEq

/-- Body of a request. -/
inductive Body where
  | form (parts : List (String × File)) : Body
  | json (value : JVal) : Body
  deriving DecidableEq

/-- A request handed to `fetch`. -/
structure Request where
  method : String
  url : String
  body : Body
  deriving DecidableEq

/-- A notification shown by `showNotification`: a fixed message, or the given text followed
by the message of a raised error, which is the wording of the engine. -/
inductive Notification where
  | text (message : String) : Notification
  | raised (before : String) (error : Fault) : Notification
  deriving DecidableEq

/-- The state of the page the handlers read and write: the mode selector, the three upload
containers, the four file inputs, the three display areas, the upload button with its label
and spinner, the edit session (`editableExtractedData`, `editableDocType`,
`currentRecordId`), the edit form and its modal, and what has been shown or sent so far. -/
structure Ui where
  docType : String
  cinShown : Bool
  singleShown : Bool
  contractShown : Bool
  front : List File
  back : List File
  single : List File
  contract : List File
  preview : List PreviewNode
  extracted : Option Rendered
  verification : VContent
  buttonDisabled : Bool
  labelShown : Bool
  spinnerShown : Bool
  editable : JVal
  editableDocType : Option String
  recordId : JVal
  form : List FormNode
  modalShown : Bool
  alerts : List String
  notifications : List Notification
  requests : List Request
  deriving DecidableEq

/-- Source function `clearPreview()`. -/
def clearPreview (s : Ui) : Ui := { s with preview := [] }

/-- Source function `updateDocTypeUI()`. -/
def updateDocTypeUI (s : Ui) : Ui :=
  let s1 := { s with
    cinShown := decide (s.docType = "cin")
    singleShown := decide (s.docType = "passport")
    contractShown := decide (s.docType = "contract") }
  let s2 := { s1 with front := [], back := [], single := [], contract := [] }
  let s3 := clearPreview s2
  { s3 with extracted := none, verification := .blocks [] }

/-- The user picks a mode in the selector: the `change` event runs `updateDocTypeUI`. -/
def selectMode (mode : String) (s : Ui) : Ui := updateDocTypeUI { s with docType := mode }

/-- The busy state the click handler sets before `fetch`. -/
def setBusy (s : Ui) : Ui :=
  { s with buttonDisabled := true, labelShown := false, spinnerShown := true }

/-- The `click` handler of the upload button, up to and including the call of `fetch`. -/
def clickUpload (s : Ui) : Ui :=
  if s.docType = "cin" then
    match s.front.head?, s.back.head? with
    | some f, some b =>
      { setBusy s with
        requests := s.requests ++ [⟨"POST", "/ocr/upload/cin", .form [("front", f), ("back", b)]⟩] }
    | _, _ =>
      { s with alerts := s.alerts ++ ["Please select both front and back images for CIN"] }
  else if s.docType = "passport" then
    match s.single.head? with
    | some f =>
      { setBusy s with
        requests := s.requests ++ [⟨"POST", "/ocr/upload/passport", .form [("file", f)]⟩] }
    | none => { s with alerts := s.alerts ++ ["Please select an image file for Passport"] }
  else if s.docType = "contract" then
    match s.contract.head? with
    | some f =>
      { setBusy s with
        requests := s.requests ++ [⟨"POST", "/ocr/upload/pdf", .form [("file", f)]⟩] }
    | none => { s with alerts := s.alerts ++ ["Please select a PDF file for Contract"] }
  else { setBusy s with requests := s.requests ++ [⟨"POST", "", .form []⟩] }

/-- How an issued request settles: `fetch` (or reading the body) rejects, or a response
arrives with its status and its body, which `JSON.parse` turns into a value or rejects. -/
inductive Settlement where
  | networkError (message : String) : Settlement
  | response (status : Nat) (statusText : String) (body : Option JVal) : Settlement
  deriving DecidableEq

/-- The logging of one image item: `img.base64?.startsWith(...)` raises when `base64` is
neither absent, null nor a string, and the template `Image ${img.image_number}:` raises when
the number does not convert to text. -/
def logImage (img : JVal) : Res Unit :=
  match getU img "base64" with
  | none => if raisesU (getU img "image_number") then .fail .typeError else .ok ()
  | some .null => if raisesU (getU img "image_number") then .fail .typeError else .ok ()
  | some (.str _) => if raisesU (getU img "image_number") then .fail .typeError else .ok ()
  | some _ => .fail .typeError

/-- The logging of the image items of a page, in order. -/
def logImages : List JVal → Res Unit
  | [] => .ok ()
  | img :: rest =>
    if getU img "type" = some (.str "image") then
      match logImage img with
      | .fail f => .fail f
      | .ok _ => logImages rest
    else logImages rest

/-- The logging of one page: `page.page_number` raises on null, the template
`Page ${page.page_number}` raises when the number does not convert to text,
`page.content.filter` raises on a truthy content that is not an array, and `i.type` on a
null item. -/
def logPage (page : JVal) : Res Unit :=
  match page with
  | .null => .fail .typeError
  | page =>
    if raisesU (getU page "page_number") then .fail .typeError
    else if !truthyU (getU page "content") then .ok ()
    else
      match getU page "content" with
      | some (.arr items) =>
        if items.all (fun i => decide (i ≠ .null)) then logImages items else .fail .typeError
      | _ => .fail .typeError

/-- The logging of the pages, in order. -/
def logPages : List JVal → Res Unit
  | [] => .ok ()
  | page :: rest =>
    match logPage page with
    | .fail f => .fail f
    | .ok _ => logPages rest

/-- The console logging of the parsed response at the head of the second `then` callback:
its output is not modelled, its faults are. -/
def logResponse (data : JVal) : Res Unit :=
  match data with
  | .null => .fail .typeError
  | data =>
    match getU data "extracted_data" with
    | none => .ok ()
    | some ed =>
      if !ed.truthy then .ok ()
      else
        match getU ed "pages" with
        | none => .ok ()
        | some (.arr ps) => logPages ps
        | some p => if p.truthy then .fail .typeError else .ok ()

/-- JavaScript `data.extracted_data?.pages` on a response that is not null. -/
def extractedPages (data : JVal) : Option JVal :=
  match getU data "extracted_data" with
  | none => none
  | some .null => none
  | some ed => getU ed "pages"

/-- The candidate `content` of the upload handler, before the object test. -/
def contentCandidate (data : JVal) (docType : String) : JVal :=
  if docType = "contract" then
    .obj [("text", orElse (getU data "text") (.str "")),
      ("tables", orElse (getU data "tables") (.arr [])),
      ("images", orElse (getU data "images") (.arr [])),
      ("pages", orElse (extractedPages data) (.arr []))]
  else
    orElse (getU data "extracted_data") (orElse (getU data "extracted_text") (.obj []))

/-- The normalisation of the parsed response into the extraction result `content`
(`let content; ... if (!content || typeof content !== 'object') content = {}`). -/
def normalizeContent (data : JVal) (docType : String) : Res JVal :=
  match data with
  | .null => .fail .typeError
  | data =>
    if !(contentCandidate data docType).truthy || !(contentCandidate data docType).typeofObject
    then .ok (.obj [])
    else .ok (contentCandidate data docType)

/-- Effect of `displayExtractedData(data, docType)` on the page: the display is emptied
first and filled only when the function completes. -/
def showExtracted (s : Ui) (data : JVal) (docType : String) : Ui × Option Fault :=
  match displayExtractedData data docType with
  | .ok r => ({ s with extracted := some r }, none)
  | .fail f => ({ s with extracted := none }, some f)

/-- Effect of `displayVerificationResults(results)` on the page. -/
def showVerification (s : Ui) (results : JVal) : Ui × Option Fault :=
  ({ s with verification := .blocks (displayVerificationResults results).blocks },
    (displayVerificationResults results).fault)

/-- The second `then` callback of the upload handler, from the parsed response on; `docType`
is the mode read when the button was clicked. -/
def onParsed (docType : String) (s : Ui) (data : JVal) : Ui × Option Fault :=
  match logResponse data with
  | .fail f => (s, some f)
  | .ok _ =>
    let s1 := { s with recordId := orElse (getU data "record_id") .null }
    match normalizeContent data docType with
    | .fail f => (s1, some f)
    | .ok content =>
      let s2 := { s1 with editable := content, editableDocType := some docType }
      match showExtracted s2 content docType with
      | (s3, some f) => (s3, some f)
      | (s3, none) =>
        match getU data "verification" with
        | none => ({ s3 with verification := .noVerification }, none)
        | some .null => ({ s3 with verification := .noVerification }, none)
        | some v => showVerification s3 v

/-- The `catch` callback of the upload handler. -/
def onUploadError (s : Ui) (message : String) : Ui :=
  { s with
    alerts := s.alerts ++ ["Upload failed: " ++ message]
    verification := .uploadFailed ("Upload failed: " ++ message) }

/-- The `finally` callback of the upload handler. -/
def onUploadSettled (s : Ui) : Ui :=
  { s with buttonDisabled := false, labelShown := true, spinnerShown := false }

/-- The promise chain of the upload handler once the request settles.  `errText` gives the
message the engine puts into a raised error; `docType` is the mode read at the click. -/
def settleUpload (errText : Fault → String) (docType : String) (s : Ui) :
    Settlement → Ui
  | .networkError message => onUploadSettled (onUploadError s message)
  | .response status statusText body =>
    if 200 ≤ status ∧ status ≤ 299 then
      match body with
      | none => onUploadSettled (onUploadError s "Server returned invalid JSON")
      | some data =>
        match onParsed docType s data with
        | (s1, none) => onUploadSettled s1
        | (s1, some f) => onUploadSettled (onUploadError s1 (errText f))
    else
      onUploadSettled
        (onUploadError s ("HTTP " ++ toString status ++ ": " ++ statusText))

/-- The `click` handler of the edit button. -/
def clickEdit (s : Ui) : Ui :=
  if !s.editable.truthy then
    { s with alerts := s.alerts
        ++ ["No extracted data to edit. Please upload a document first."] }
  else
    match buildEditForm s.editable (s.editableDocType.getD "") with
    | ⟨nodes, none⟩ => { s with form := nodes, modalShown := true }
    | ⟨nodes, some _⟩ => { s with form := nodes }

/-- The `click` handler of the save button, up to and including the call of `fetch`; a
fault ends the handler where it is raised. -/
def clickSave (s : Ui) : Ui :=
  match applyEdits s.editable (controls s.form) with
  | ⟨d, some _⟩ => { s with editable := d }
  | ⟨d, none⟩ =>
    match showExtracted { s with editable := d } d (s.editableDocType.getD "") with
    | (s1, some _) => s1
    | (s1, none) =>
      let s2 := { s1 with
        modalShown := false
        notifications :=
          s1.notifications ++ [Notification.text "Changes saved successfully!"] }
      if s2.recordId.truthy then
        if s2.recordId.toStringRaises then
          -- the template of the address raises inside `try`: the `catch` reports it
          { s2 with notifications := s2.notifications
              ++ [Notification.raised "Failed to save to backend: " Fault.typeError] }
        else
          { s2 with requests := s2.requests ++ [⟨"PUT", "/ocr/update/" ++ s2.recordId.toStr,
              .json (.obj [("extracted_data", s2.editable),
                ("doc_type", match s2.editableDocType with
                  | some d => .str d
                  | none => .null)])⟩] }
      else s2

/-- Source function `prepareDataForExport()`. -/
def prepareDataForExport (s : Ui) : JVal :=
  .obj [("extracted_data", s.editable), ("verification", .null)]

/-- The `click` handler of an export button that posts to the backend (`/ocr/export/pdf`,
`/ocr/export/excel`, `/ocr/export/csv`), up to and including the call of `fetch`. -/
def clickExport (url : String) (s : Ui) : Ui :=
  if !s.editable.truthy then { s with alerts := s.alerts ++ ["No data to export."] }
  else { s with requests := s.requests ++ [⟨"POST", url, .json (prepareDataForExport s)⟩] }

/-- The page right after the script has run with the mode selector on `mode`: nothing
selected, nothing shown, no edit session. -/
def initialUi (mode : String) : Ui :=
  updateDocTypeUI {
    docType := mode, cinShown := false, singleShown := false, contractShown := false,
    front := [], back := [], single := [], contract := [], preview := [],
    extracted := none, verification := .blocks [], buttonDisabled := false,
    labelShown := true, spinnerShown := false, editable := .null, editableDocType := none,
    recordId := .null, form := [], modalShown := false, alerts := [], notifications := [],
    requests := [] }

/-! ## Notions used to state the properties -/

/-- The page entry has a `content` field. -/
def hasContentField (page : JVal) : Bool := (getU page "content").isSome

/-- The items of the `content` sequence of a page. -/
def contentItems (page : JVal) : List JVal :=
  match getU page "content" with
  | some (.arr items) => items
  | _ => []

/-- A text-type content item with a non-empty (truthy) value. -/
def shownText (item : JVal) : Bool :=
  decide (getU item "type" = some (.str "text")) && truthyU (getU item "value")

/-- The value of a content item, as text. -/
def itemText (item : JVal) : String :=
  match getU item "value" with
  | some v => v.toStr
  | none => ""

/-- A content item that the renderer can read: it is not null, and when it is a text item
with a truthy value, that value converts to text. -/
def itemOk (item : JVal) : Bool :=
  decide (item ≠ .null) && !(shownText item && raisesU (getU item "value"))

/-- A page entry that the renderer can read: it is not null, and its `content` is falsy, or
it is an array of items that can be read and the page number (or `?` in its place) converts
to text. -/
def pageOk (page : JVal) : Bool :=
  decide (page ≠ .null) &&
    (match getU page "content" with
      | none => true
      | some (.arr items) =>
        !(orElse (getU page "page_number") (.str "?")).toStringRaises && items.all itemOk
      | some c => !c.truthy)

/-- Every entry of the `pages` array of a record can be read by the renderer. -/
def pagesOk (data : JVal) : Bool :=
  match getU data "pages" with
  | some (.arr ps) => ps.all pageOk
  | _ => true

/-- The top-level `text` of a record is falsy or converts to text. -/
def textOk (data : JVal) : Bool := !(truthyU (getU data "text") && raisesU (getU data "text"))

/-- The record can be rendered: its `text` and the entries of its `pages` can be read. -/
def extractionOk (data : JVal) : Bool := textOk data && pagesOk data

/-- The free text shown first in the document layout: the truthy `text` of the record. -/
def freeText (data : JVal) : List Node :=
  match getU data "text" with
  | some t => if t.truthy then [.pre t.toStr] else []
  | none => []

/-- The titled block of a page: its text items with a non-empty value, verbatim, in order. -/
def pageBlockOf (page : JVal) : Node :=
  .pageBlock ("Page " ++ (orElse (getU page "page_number") (.str "?")).toStr ++ ":")
    (((contentItems page).filter shownText).map itemText)

/-- The node of the flat-record layout for a field that is not skipped: a text block for the
key `text`, a row with the title-cased key and the value as text for any other key. -/
def flatNode (kv : String × JVal) : Node :=
  if kv.1 = "text" then .textBlock (textContent kv.2) (isArabic kv.2)
  else .fieldRow (formatKey kv.1) (textContent kv.2) (isArabic kv.2) false

/-- The entries of the `checks` member of a structured verification result. -/
def checkEntries (fs : List (String × JVal)) : List (String × JVal) :=
  match lookupKey fs "checks" with
  | some c => objectEntries c
  | none => []

/-- An entry of `checks` that the renderer can read: it is not null, and its details and its
score (or the defaults in their place) convert to text. -/
def entryOk (e : String × JVal) : Bool :=
  decide (e.2 ≠ .null) &&
    !((orElse (getU e.2 "details") (.str "No details available")).toStringRaises
      || (orElse (getU e.2 "score") (.num 0)).toStringRaises)

/-- The `error` member of a verification result is falsy or converts to text. -/
def errorOk (results : JVal) : Bool :=
  !(truthyU (getU results "error") && raisesU (getU results "error"))

/-- The verification result can be rendered: an array none of whose elements raises on
conversion to text; an object whose score and confidence level convert to text, whose
`checks` entries can be read and whose `error` is falsy or converts to text; or any
primitive. -/
def verificationOk : JVal → Bool
  | .arr xs => !anyRaises xs
  | .obj fs => !scoreCardRaises (.obj fs) && (checkEntries fs).all entryOk && errorOk (.obj fs)
  | _ => true

/-- The check rows a verification display shows. -/
def shownRows : List VBlock → List CheckRow
  | [] => []
  | .checksList rows :: bs => rows ++ shownRows bs
  | _ :: bs => shownRows bs

/-- The extraction result of the modes other than `contract` as the specification words it,
with "present" read as "the response has the member": `extracted_data` when present,
otherwise `extracted_text` when present, otherwise the empty record; a candidate that is not
an object is replaced by the empty record. -/
def contentAsWorded (data : JVal) : JVal :=
  match (match getU data "extracted_data" with
    | some v => v
    | none =>
      match getU data "extracted_text" with
      | some v => v
      | none => .obj []) with
  | .obj fs => .obj fs
  | _ => .obj []

/-- The files the active mode requires are selected: both card faces for `cin`, the single
image for `passport`, the single PDF for `contract`. -/
def requiredFilesSelected (s : Ui) : Bool :=
  if s.docType = "cin" then s.front.head?.isSome && s.back.head?.isSome
  else if s.docType = "passport" then s.single.head?.isSome
  else if s.docType = "contract" then s.contract.head?.isSome
  else true

/-- The endpoint of a mode. -/
def uploadEndpoint (mode : String) : String :=
  if mode = "cin" then "/ocr/upload/cin"
  else if mode = "passport" then "/ocr/upload/passport"
  else if mode = "contract" then "/ocr/upload/pdf"
  else ""

/-- Title-casing as the specification words it: underscores become spaces, and the first
character of each maximal run of characters between underscores or spaces is upper-cased;
the flag tells whether the next character starts such a run. -/
def titleCaseRuns : Bool → List Char → List Char
  | _, [] => []
  | start, c :: cs =>
    if c = '_' || c = ' ' then ' ' :: titleCaseRuns true cs
    else (if start then c.toUpper else c) :: titleCaseRuns false cs

/-- The character `formatKey` puts at a position of the key, given the character before
that position, if any: a space for an underscore, the upper-case letter for an ASCII letter
or digit that does not follow an ASCII letter or digit, the character itself otherwise. -/
def titleChar (before : Option Char) (c : Char) : Char :=
  if c = '_' then ' '
  else if c.isAlphanum && !(match before with
      | some b => b.isAlphanum
      | none => false) then c.toUpper
  else c

/-- The page after an identity card has been uploaded in mode `cin` (the backend answers
with the record `name: Ali` and the record identifier `r1`) and the user has then switched
to mode `passport`. -/
def cinUploadThenPassport : Ui :=
  selectMode "passport"
    (settleUpload (fun _ => "TypeError") "cin"
      (clickUpload { initialUi "cin" with
        front := [⟨"front.png", "image/png"⟩]
        back := [⟨"back.png", "image/png"⟩] })
      (.response 200 "OK"
        (some (.obj [("success", .bool true),
          ("extracted_data", .obj [("name", .str "Ali")]), ("record_id", .str "r1")]))))

set_option maxRecDepth 20000

/-! ## Lemmas on field lists and arrays -/

theorem lookupKey_replaceKey (fs : List (String × JVal)) (k k2 : String) (v : JVal) :
    lookupKey (replaceKey fs k v) k2
      = if k2 = k then (lookupKey fs k).map (fun _ => v) else lookupKey fs k2 := by
  induction fs with
  | nil => simp [replaceKey, lookupKey]
  | cons p fs ih =>
    obtain ⟨a, x⟩ := p
    by_cases hak : a = k
    · subst hak
      by_cases h2 : k2 = a
      · subst h2; simp [replaceKey, lookupKey]
      · have h3 : ¬ a = k2 := fun e => h2 e.symm
        simp [replaceKey, lookupKey, h2, h3]
    · by_cases h2 : k2 = k
      · subst h2
        simp [replaceKey, lookupKey, hak, ih]
      · by_cases h3 : a = k2
        · simp [replaceKey, lookupKey, hak, h2, h3]
        · simp [replaceKey, lookupKey, hak, h2, h3, ih]

theorem lookupKey_setIndexed (xs : List JVal) (i : Nat) (k k2 : String) (v : JVal) :
    lookupKey (indexed i (setIndexed xs i k v)) k2
      = if k2 = k then (lookupKey (indexed i xs) k).map (fun _ => v)
        else lookupKey (indexed i xs) k2 := by
  induction xs generalizing i with
  | nil => simp [setIndexed, indexed, lookupKey]
  | cons x xs ih =>
    by_cases hik : toString i = k
    · subst hik
      by_cases h2 : k2 = toString i
      · subst h2; simp [setIndexed, indexed, lookupKey]
      · have h3 : ¬ toString i = k2 := fun e => h2 e.symm
        simp [setIndexed, indexed, lookupKey, h2, h3]
    · by_cases h2 : k2 = k
      · subst h2
        simp [setIndexed, indexed, lookupKey, hik, ih]
      · by_cases h3 : toString i = k2
        · simp [setIndexed, indexed, lookupKey, hik, h2, h3]
        · simp [setIndexed, indexed, lookupKey, hik, h2, h3, ih]

/-! ## Lemmas on the walk of `setValueByPath` -/

theorem getProp_of_child {node c : JVal} {k : String} (h : child node k = some c) :
    getProp node k = .ok (some c) := by
  cases node with
  | null => simp [child] at h
  | bool b => simp [child] at h
  | num n => simp [child] at h
  | str s => simp [child] at h
  | arr xs => simp only [child] at h; simp [getProp, getU, h]
  | obj fs => simp only [child] at h; simp [getProp, getU, h]

theorem getProp_of_not_inherited {v : JVal} {k : String} (hv : v ≠ .null)
    (hk : (inheritedNames v).contains k = false) : getProp v k = .ok (getU v k) := by
  cases v with
  | null => exact absurd rfl hv
  | bool b =>
    simp only [getProp]
    cases getU (.bool b) k <;> simp only [hk, Bool.false_eq_true, if_false]
  | num n =>
    simp only [getProp]
    cases getU (.num n) k <;> simp only [hk, Bool.false_eq_true, if_false]
  | str t =>
    simp only [getProp]
    cases getU (.str t) k <;> simp only [hk, Bool.false_eq_true, if_false]
  | arr xs =>
    simp only [getProp]
    cases getU (.arr xs) k <;> simp only [hk, Bool.false_eq_true, if_false]
  | obj fs =>
    simp only [getProp]
    cases getU (.obj fs) k <;> simp only [hk, Bool.false_eq_true, if_false]

theorem isLeaf_of_child {node c : JVal} {k : String} (h : child node k = some c) :
    node.isLeaf = false := by
  cases node <;> simp [child] at h <;> rfl

theorem putProp_of_child {node old : JVal} {k : String} (v : JVal)
    (h : child node k = some old) :
    ∃ node2, putProp node k v = .ok node2 ∧ child node2 k = some v ∧
      (∀ k2, k2 ≠ k → child node2 k2 = child node k2) := by
  cases node with
  | null => simp [child] at h
  | bool b => simp [child] at h
  | num n => simp [child] at h
  | str s => simp [child] at h
  | arr xs =>
    simp only [child] at h
    refine ⟨.arr (setIndexed xs 0 k v), by simp [putProp, h], ?_, ?_⟩
    · simp [child, lookupKey_setIndexed, h]
    · intro k2 hk; simp [child, lookupKey_setIndexed, hk]
  | obj fs =>
    simp only [child] at h
    refine ⟨.obj (replaceKey fs k v), by simp [putProp, h], ?_, ?_⟩
    · simp [child, lookupKey_replaceKey, h]
    · intro k2 hk; simp [child, lookupKey_replaceKey, hk]

theorem setChild_of_child {node old : JVal} {k : String} (c : JVal)
    (h : child node k = some old) :
    child (setChild node k c) k = some c ∧
      (∀ k2, k2 ≠ k → child (setChild node k c) k2 = child node k2) := by
  cases node with
  | null => simp [child] at h
  | bool b => simp [child] at h
  | num n => simp [child] at h
  | str s => simp [child] at h
  | arr xs =>
    simp only [child] at h
    exact ⟨by simp [setChild, child, lookupKey_setIndexed, h],
      fun k2 hk => by simp [setChild, child, lookupKey_setIndexed, hk]⟩
  | obj fs =>
    simp only [child] at h
    exact ⟨by simp [setChild, child, lookupKey_replaceKey, h],
      fun k2 hk => by simp [setChild, child, lookupKey_replaceKey, hk]⟩

theorem leafAt_nil_of_child {node c : JVal} {k : String} (h : child node k = some c) :
    leafAt node [] = none := by
  simp [leafAt, lookupPath, isLeaf_of_child h]

theorem leafAt_cons (node : JVal) (k : String) (qs : List String) :
    leafAt node (k :: qs)
      = match child node k with
        | some c => leafAt c qs
        | none => none := by
  unfold leafAt
  simp only [lookupPath]
  cases child node k <;> rfl

/-- Frame property of the walk: the store reaches the addressed member, and no leaf at a
path that does not pass through the addressed member appears, vanishes or changes. -/
theorem assignPath_frame (keys : List String) :
    ∀ (node old v : JVal), keys ≠ [] → lookupPath node keys = some old →
      ∃ node2, assignPath node keys v = .ok node2 ∧ lookupPath node2 keys = some v ∧
        ∀ q, (∀ t, q ≠ keys ++ t) → leafAt node2 q = leafAt node q := by
  induction keys with
  | nil => intro node old v h; exact absurd rfl h
  | cons k ks ih =>
    intro node old v _ hres
    simp only [lookupPath] at hres
    cases hc : child node k with
    | none => simp [hc] at hres
    | some c =>
      simp only [hc] at hres
      cases ks with
      | nil =>
        simp only [lookupPath] at hres
        obtain ⟨node2, hput, hsame, hother⟩ := putProp_of_child v hc
        refine ⟨node2, by simpa [assignPath] using hput, by simp [lookupPath, hsame], ?_⟩
        intro q hq
        cases q with
        | nil => rw [leafAt_nil_of_child hc, leafAt_nil_of_child hsame]
        | cons k2 qs =>
          by_cases hk : k2 = k
          · subst hk; exact absurd rfl (hq qs)
          · rw [leafAt_cons, leafAt_cons, hother k2 hk]
      | cons k3 ks2 =>
        obtain ⟨c2, hrec, hsame, hframe⟩ := ih c old v (by simp) hres
        obtain ⟨hset, hother⟩ := setChild_of_child c2 hc
        refine ⟨setChild node k c2, ?_, ?_, ?_⟩
        · simp [assignPath, getProp_of_child hc, hrec]
        · simp only [lookupPath, hset]; simpa [lookupPath] using hsame
        · intro q hq
          cases q with
          | nil => rw [leafAt_nil_of_child hc, leafAt_nil_of_child hset]
          | cons k2 qs =>
            by_cases hk : k2 = k
            · subst hk
              rw [leafAt_cons, leafAt_cons, hset, hc]
              apply hframe
              intro t ht
              exact hq t (by rw [ht]; rfl)
            · rw [leafAt_cons, leafAt_cons, hother k2 hk]

theorem leafAt_below_leaf {node old : JVal} (keys t : List String)
    (hres : lookupPath node keys = some old) (hleaf : old.isLeaf = true) (ht : t ≠ []) :
    leafAt node (keys ++ t) = none := by
  induction keys generalizing node with
  | nil =>
    simp only [lookupPath, Option.some.injEq] at hres
    subst hres
    cases t with
    | nil => exact absurd rfl ht
    | cons k ts =>
      rw [List.nil_append, leafAt_cons]
      cases node <;> simp [JVal.isLeaf] at hleaf <;> simp [child]
  | cons k ks ih =>
    simp only [lookupPath] at hres
    rw [List.cons_append, leafAt_cons]
    cases hc : child node k with
    | none => rfl
    | some c => simp only [hc] at hres; exact ih hres

theorem assignPath_missing (pre suf : List String) (v : JVal) (hsuf : suf ≠ []) :
    ∀ node, readPath (some node) pre = .ok none →
      assignPath node (pre ++ suf) v = .fail .typeError := by
  induction pre with
  | nil => intro node h; simp [readPath] at h
  | cons k pre ih =>
    intro node h
    simp only [readPath] at h
    cases hg : getProp node k with
    | fail f => simp [hg] at h
    | ok r =>
      simp only [hg] at h
      cases r with
      | none =>
        cases pre with
        | nil =>
          cases suf with
          | nil => exact absurd rfl hsuf
          | cons s ss => simp [assignPath, hg]
        | cons k2 pre2 => simp [readPath] at h
      | some c =>
        have hrec := ih c h
        cases hps : pre ++ suf with
        | nil => simp [hsuf] at hps
        | cons k2 rest =>
          rw [hps] at hrec
          rw [List.cons_append, hps]
          simp [assignPath, hg, hrec]

/-! ## C1 and C3: setValueByPath -/

/-- A read of a member name that the program writes sees own members only: on every value
that is not null, `getProp` agrees with `getU` for these names. -/
theorem getProp_memberNames (v : JVal) (k : String) (hv : v ≠ .null) (hk : k ∈ memberNames) :
    getProp v k = .ok (getU v k) := by
  apply getProp_of_not_inherited hv
  have hall : ∀ k ∈ memberNames, ∀ names ∈ [booleanPrototype ++ objectPrototype,
      numberPrototype ++ objectPrototype, stringPrototype ++ objectPrototype,
      arrayPrototype ++ objectPrototype, objectPrototype], names.contains k = false := by
    decide
  cases v with
  | null => exact absurd rfl hv
  | bool b => exact hall k hk _ (by simp [inheritedNames])
  | num n => exact hall k hk _ (by simp [inheritedNames])
  | str t => exact hall k hk _ (by simp [inheritedNames])
  | arr xs => exact hall k hk _ (by simp [inheritedNames])
  | obj fs => exact hall k hk _ (by simp [inheritedNames])

/-- A key that names an inherited member is told from a missing key: on the record with the
one field `name`, the key `toString` reads a function of `Object.prototype`, so the walk
leaves the JSON fragment, while the key `pages` reads as `undefined`. -/
theorem readPath_inherited_member :
    readPath (some (.obj [("name", .str "A")])) ["toString"] = .fail .nonJson ∧
      readPath (some (.obj [("name", .str "A")])) ["pages"] = .ok none ∧
      setValueByPath (.obj [("name", .str "A")]) "toString.x" (.str "v")
        = ⟨.obj [("name", .str "A")], some .nonJson⟩ := by
  decide

/-- C1: when every segment of the dotted path resolves in the record, `setValueByPath`
completes and the addressed member holds the given value afterwards; when the path addresses
a leaf, every other leaf of the record is unchanged; and in any case no leaf appears, vanishes
or changes at a path that does not pass through the addressed member. -/
theorem setValueByPath_changes_only_addressed_leaf (record : JVal) (path : String)
    (value old : JVal) (hres : lookupPath record (splitPath path) = some old) :
    ∃ record2, setValueByPath record path value = ⟨record2, none⟩ ∧
      lookupPath record2 (splitPath path) = some value ∧
      (old.isLeaf = true →
        ∀ q x, q ≠ splitPath path → leafAt record q = some x → leafAt record2 q = some x) ∧
      (∀ q, (∀ t, q ≠ splitPath path ++ t) → leafAt record2 q = leafAt record q) := by
  have hne : splitPath path ≠ [] := by simp [splitPath]
  obtain ⟨r2, hrun, hsame, hframe⟩ := assignPath_frame (splitPath path) record old value hne hres
  refine ⟨r2, by simp [setValueByPath, hrun], hsame, ?_, hframe⟩
  intro hleaf q x hq hx
  by_cases hext : ∃ t, q = splitPath path ++ t
  · obtain ⟨t, rfl⟩ := hext
    have ht : t ≠ [] := by
      intro e; subst e; exact hq (by simp)
    rw [leafAt_below_leaf (splitPath path) t hres hleaf ht] at hx
    exact absurd hx (by simp)
  · rw [hframe q (fun t ht => hext ⟨t, ht⟩)]
    exact hx

/-- Witness of C1 at the path `pages.0.content.2.value`: the third text block is replaced,
the second one keeps its value. -/
theorem setValueByPath_changes_only_addressed_leaf_witness :
    lookupPath
        (.obj [("pages", .arr [.obj [("page_number", .num 1),
          ("content", .arr [.obj [("type", .str "text"), ("value", .str "a")],
            .obj [("type", .str "text"), ("value", .str "b")],
            .obj [("type", .str "text"), ("value", .str "c")]])]])])
        (splitPath "pages.0.content.2.value") = some (.str "c") ∧
      ∃ record2,
        setValueByPath
          (.obj [("pages", .arr [.obj [("page_number", .num 1),
            ("content", .arr [.obj [("type", .str "text"), ("value", .str "a")],
              .obj [("type", .str "text"), ("value", .str "b")],
              .obj [("type", .str "text"), ("value", .str "c")]])]])])
          "pages.0.content.2.value" (.str "edited") = ⟨record2, none⟩ ∧
        lookupPath record2 (splitPath "pages.0.content.2.value") = some (.str "edited") ∧
        leafAt record2 ["pages", "0", "content", "1", "value"] = some (.str "b") :=
  ⟨by decide,
    (setValueByPath_changes_only_addressed_leaf _ "pages.0.content.2.value" (.str "edited")
      (.str "c") (by decide)).imp
      (fun _ h => ⟨h.1, h.2.1,
        h.2.2.1 (by decide) ["pages", "0", "content", "1", "value"] (.str "b") (by decide)
          (by decide)⟩)⟩

/-- C3: when reading the segments before the last one reaches a segment that does not exist
(the lookup yields `undefined`: the value read so far has no such member, own or inherited),
`setValueByPath` raises a `TypeError` instead of assigning and the record is left as it
was. -/
theorem setValueByPath_missing_intermediate_fails (record : JVal) (path : String)
    (value : JVal) (pre suf : List String) (hsplit : splitPath path = pre ++ suf)
    (hsuf : suf ≠ []) (hmiss : readPath (some record) pre = .ok none) :
    setValueByPath record path value = ⟨record, some .typeError⟩ := by
  simp [setValueByPath, hsplit, assignPath_missing pre suf value hsuf record hmiss]

/-- Witness of C3: the record has no member `pages`. -/
theorem setValueByPath_missing_intermediate_fails_witness :
    splitPath "pages.0.value" = ["pages"] ++ ["0", "value"] ∧
      readPath (some (.obj [("name", .str "A")])) ["pages"] = .ok none ∧
      setValueByPath (.obj [("name", .str "A")]) "pages.0.value" (.str "x")
        = ⟨.obj [("name", .str "A")], some .typeError⟩ :=
  ⟨by decide, by decide,
    setValueByPath_missing_intermediate_fails _ "pages.0.value" (.str "x") ["pages"]
      ["0", "value"] (by decide) (by simp) (by decide)⟩

/-! ## C2, C4 and C5: the edit form of a flat record -/

/-- C2 (failing input): for the flat record with the fields `a` (an empty object) and `a.b`
(the number 5), `buildEditForm` makes one control, for `a.b`, showing `5`; `applyEdits` with
the control unchanged completes, the field `a.b` still holds the number 5 and the text went
into the object `a`.  When the record has the field `a.b` only, `applyEdits` raises a
`TypeError` and the field keeps the number. -/
theorem applyEdits_dotted_field_keeps_number :
    buildEditForm (.obj [("a", .obj []), ("a.b", .num 5)]) "cin"
        = ⟨[.input "a.b" "A.B" "5"], none⟩ ∧
      applyEdits (.obj [("a", .obj []), ("a.b", .num 5)])
          (controls (buildEditForm (.obj [("a", .obj []), ("a.b", .num 5)]) "cin").nodes)
        = ⟨.obj [("a", .obj [("b", .str "5")]), ("a.b", .num 5)], none⟩ ∧
      applyEdits (.obj [("a.b", .num 5)])
          (controls (buildEditForm (.obj [("a.b", .num 5)]) "cin").nodes)
        = ⟨.obj [("a.b", .num 5)], some .typeError⟩ := by
  decide

/-- The forms of the records of C2, C18 and C19 are read off their templates: none of their
nodes is unparsed markup, so `controls` lists all their controls. -/
theorem edit_forms_parsed :
    parsed (buildEditForm (.obj [("a", .obj []), ("a.b", .num 5)]) "cin").nodes = true ∧
      parsed (buildEditForm (.obj [("user.name", .str "Ali")]) "passport").nodes = true ∧
      parsed (buildEditForm (.obj [("text", .str "RAW"), ("name", .str "Ali")]) "cin").nodes
        = true := by
  decide

/-- C4 (failing input): the flat record has the single field `<input data-path=x>`, with the
value `v`.  The field is not skipped and `buildEditForm` completes with one `div`, whose
markup holds the field name as it is, in the label (title-cased) and in `data-path`, while
the same text given as a value is escaped.  The label is therefore markup: an `input`
element with the attribute `data-path` set to `X`, in front of the control of the field, so
the form holds two edit controls for the one field; `applyEdits` on these two controls adds
the field `X` to the record. -/
theorem buildEditForm_markup_in_field_name :
    shouldSkipEditField "<input data-path=x>" (.str "v") = false ∧
      buildEditForm (.obj [("<input data-path=x>", .str "v")]) "cin"
        = ⟨[.raw ("\n        <label class=\"form-label\"><Input Data-Path=X></label>\n"
            ++ "        <input type=\"text\" class=\"form-control\" "
            ++ "data-path=\"<input data-path=x>\" value=\"v\">\n    ")], none⟩ ∧
      escapeHtml (.str "<input data-path=x>") = .ok "&lt;input data-path=x&gt;" ∧
      applyEdits (.obj [("<input data-path=x>", .str "v")])
          [⟨"X", ""⟩, ⟨"<input data-path=x>", "v"⟩]
        = ⟨.obj [("<input data-path=x>", .str "v"), ("X", .str "")], none⟩ := by
  refine ⟨by decide, by decide, by decide, by decide⟩

/-- C5 (failing input): the flat record has the single field `tables" x="`, with the value
`v`, and no field `tables`.  The field is not skipped and `buildEditForm` completes with one
`div`, in whose markup the double quote of the field name ends the attribute: the control
has the `data-path` `tables`, the attribute `x` and the value `v`.  `applyEdits` on that
control adds the denylisted key `tables` to the record. -/
theorem applyEdits_quote_in_field_name_adds_tables :
    shouldSkipEditField "tables\" x=\"" (.str "v") = false ∧
      buildEditForm (.obj [("tables\" x=\"", .str "v")]) "cin"
        = ⟨[.raw ("\n        <label class=\"form-label\">Tables\" X=\"</label>\n"
            ++ "        <input type=\"text\" class=\"form-control\" "
            ++ "data-path=\"tables\" x=\"\" value=\"v\">\n    ")], none⟩ ∧
      "tables" ∉ objectKeys (.obj [("tables\" x=\"", .str "v")]) ∧
      applyEdits (.obj [("tables\" x=\"", .str "v")]) [⟨"tables", "v"⟩]
        = ⟨.obj [("tables\" x=\"", .str "v"), ("tables", .str "v")], none⟩ ∧
      "tables" ∈ objectKeys
        (applyEdits (.obj [("tables\" x=\"", .str "v")]) [⟨"tables", "v"⟩]).data := by
  refine ⟨by decide, by decide, by decide, by decide, by decide⟩

/-! ## Lemmas on the extraction renderer -/

theorem getU_obj (fs : List (String × JVal)) (k : String) :
    getU (.obj fs) k = lookupKey fs k := rfl

theorem textContent_of_truthy {v : JVal} (h : v.truthy = true) : textContent v = v.toStr := by
  cases v <;> simp [JVal.truthy] at h <;> rfl

theorem renderItem_eq (item : JVal) :
    renderItem item
      = if itemOk item then .ok (if shownText item then [itemText item] else [])
        else .fail .typeError := by
  by_cases hn : item = .null
  · subst hn; rfl
  · have hr : renderItem item
        = if getU item "type" = some (.str "text") && truthyU (getU item "value") then
            match getU item "value" with
            | some v => if v.toStringRaises then .fail .typeError else .ok [textContent v]
            | none => .ok []
          else if getU item "type" = some (.str "table") then .ok []
          else if getU item "type" = some (.str "image") && truthyU (getU item "base64") then
            .ok []
          else .ok [] := by
      cases item <;> first | exact absurd rfl hn | rfl
    rw [hr]
    unfold itemOk shownText itemText
    by_cases h1 : getU item "type" = some (.str "text")
    · cases hv : getU item "value" with
      | none => simp [h1, truthyU, hn]
      | some v =>
        by_cases h2 : v.truthy = true
        · by_cases h3 : v.toStringRaises = true
          · simp [h1, truthyU, h2, h3, hn, raisesU]
          · simp [h1, truthyU, h2, h3, hn, raisesU, textContent_of_truthy h2]
        · simp [h1, truthyU, h2, hn]
    · simp [h1, hn]

theorem renderItems_eq (items : List JVal) :
    renderItems items
      = if items.all itemOk then .ok ((items.filter shownText).map itemText)
        else .fail .typeError := by
  induction items with
  | nil => rfl
  | cons item rest ih =>
    simp only [renderItems, renderItem_eq, ih]
    by_cases hi : itemOk item = true
    · by_cases hall : rest.all itemOk = true
      · by_cases hs : shownText item = true <;> simp [hi, hall, hs]
      · simp [hi, hall]
    · simp [hi]

theorem renderPage_eq (page : JVal) :
    renderPage page
      = if pageOk page then
          .ok (if truthyU (getU page "content") then [pageBlockOf page] else [])
        else .fail .typeError := by
  by_cases hn : page = .null
  · subst hn; rfl
  · have hr : renderPage page
        = if !truthyU (getU page "content") then .ok []
          else if (orElse (getU page "page_number") (.str "?")).toStringRaises then
            .fail .typeError
          else
            match getU page "content" with
            | some (.arr items) =>
              match renderItems items with
              | .fail f => .fail f
              | .ok ts =>
                .ok [.pageBlock
                  ("Page " ++ (orElse (getU page "page_number") (.str "?")).toStr ++ ":") ts]
            | _ => .fail .typeError := by
      cases page <;> first | exact absurd rfl hn | rfl
    rw [hr]
    unfold pageOk pageBlockOf contentItems
    cases hc : getU page "content" with
    | none => simp [hn, truthyU]
    | some c =>
      cases c with
      | arr items =>
        by_cases ht : (orElse (getU page "page_number") (.str "?")).toStringRaises = true
        · simp [hn, truthyU, JVal.truthy, ht]
        · by_cases hall : items.all itemOk = true
          · simp [hn, truthyU, JVal.truthy, ht, renderItems_eq, hall]
          · simp [hn, truthyU, JVal.truthy, ht, renderItems_eq, hall]
      | null => simp [hn, truthyU, JVal.truthy]
      | bool b =>
        by_cases ht : (orElse (getU page "page_number") (.str "?")).toStringRaises = true <;>
          cases b <;> simp [hn, truthyU, JVal.truthy, ht]
      | num n =>
        by_cases ht : (orElse (getU page "page_number") (.str "?")).toStringRaises = true <;>
          by_cases h0 : n.nonzero = true <;> simp [hn, truthyU, JVal.truthy, ht, h0]
      | str t =>
        by_cases ht : (orElse (getU page "page_number") (.str "?")).toStringRaises = true <;>
          by_cases h0 : t = "" <;> simp [hn, truthyU, JVal.truthy, ht, h0]
      | obj gs =>
        by_cases ht : (orElse (getU page "page_number") (.str "?")).toStringRaises = true <;>
          simp [hn, truthyU, JVal.truthy, ht]

theorem renderPages_eq (ps : List JVal) :
    renderPages ps
      = if ps.all pageOk then
          .ok ((ps.filter (fun p => truthyU (getU p "content"))).map pageBlockOf)
        else .fail .typeError := by
  induction ps with
  | nil => rfl
  | cons page rest ih =>
    simp only [renderPages, renderPage_eq, ih]
    by_cases hp : pageOk page = true
    · by_cases hall : rest.all pageOk = true
      · by_cases hc : truthyU (getU page "content") = true <;> simp [hp, hall, hc]
      · simp [hp, hall]
    · simp [hp]

theorem renderText_eq (data : JVal) :
    renderText data = if textOk data then .ok (freeText data) else .fail .typeError := by
  unfold renderText textOk freeText
  cases ht : getU data "text" with
  | none => simp [truthyU]
  | some t =>
    by_cases h1 : t.truthy = true
    · by_cases h2 : t.toStringRaises = true
      · simp [truthyU, raisesU, h1, h2]
      · simp [truthyU, raisesU, h1, h2, textContent_of_truthy h1]
    · simp [truthyU, h1]

theorem renderFlat_eq (fs : List (String × JVal)) :
    renderFlat fs = (fs.filter (fun kv => !shouldSkipEditField kv.1 kv.2)).map flatNode := by
  induction fs with
  | nil => rfl
  | cons p fs ih =>
    obtain ⟨k, v⟩ := p
    by_cases hs : shouldSkipEditField k v = true
    · simp [renderFlat, hs, ih]
    · have hobj : (v.typeofObject && decide (v ≠ .null)) = false := by
        cases v <;> simp [shouldSkipEditField, JVal.typeofObject] at hs ⊢
      have hs2 : shouldSkipEditField k v = false := by simpa using hs
      simp only [renderFlat, hs2, hobj, Bool.false_eq_true, if_false, ih, Bool.not_false,
        List.filter_cons, if_true, List.map_cons, flatNode]
      split <;> rfl

theorem documentTest_iff (fs : List (String × JVal)) :
    documentTest (.obj fs) = true ↔
      ((∃ ps, lookupKey fs "pages" = some (.arr ps) ∧ ps ≠ []) ∨
        truthyU (lookupKey fs "text") = true) := by
  unfold documentTest
  simp only [getU, Bool.or_eq_true]
  constructor
  · rintro (h | h)
    · left
      cases hp : lookupKey fs "pages" with
      | none => simp [hp] at h
      | some v =>
        cases v with
        | arr ps =>
          refine ⟨ps, rfl, ?_⟩
          intro e; subst e; simp [hp] at h
        | _ => simp [hp] at h
    · exact Or.inr h
  · rintro (⟨ps, hp, hne⟩ | h)
    · left
      simp [hp, List.length_pos, hne]
    · exact Or.inr h

/-- The blocks of the pages of a record, in page order: one per page whose `content` is
truthy. -/
theorem displayExtractedData_obj (fs : List (String × JVal)) (docType : String)
    (hne : fs ≠ []) :
    displayExtractedData (.obj fs) docType
      = if documentTest (.obj fs) then
          if extractionOk (.obj fs) then
            .ok (.document (freeText (.obj fs) ++
              (match lookupKey fs "pages" with
                | some (.arr ps) =>
                  (ps.filter (fun p => truthyU (getU p "content"))).map pageBlockOf
                | _ => [])))
          else .fail .typeError
        else .ok (.flat ((fs.filter (fun kv => !shouldSkipEditField kv.1 kv.2)).map flatNode))
    := by
  have hkeys : (objectKeys (.obj fs)).isEmpty = false := by
    cases fs with
    | nil => exact absurd rfl hne
    | cons p fs => rfl
  simp only [displayExtractedData, JVal.truthy, hkeys, Bool.not_true, Bool.or_self,
    Bool.false_eq_true, if_false, renderText_eq, objectEntries, renderFlat_eq]
  by_cases hd : documentTest (.obj fs) = true
  · simp only [hd, if_true, extractionOk, pagesOk, getU_obj]
    by_cases ht : textOk (.obj fs) = true
    · simp only [ht, if_true, Bool.true_and]
      cases hp : lookupKey fs "pages" with
      | none => simp
      | some v =>
        cases v with
        | arr ps =>
          simp only [renderPages_eq]
          by_cases hall : ps.all pageOk = true
          · simp [hall]
          · simp [hall]
        | _ => simp
    · simp [ht]
  · simp [hd]

/-! ## C6, C7 and C8: the extraction renderer -/

/-- C6 (counterexample): the record that contract mode builds from an empty response has a
top-level `text` field, yet it is rendered in the flat-record layout. -/
theorem displayExtractedData_empty_text_is_flat :
    "text" ∈ objectKeys
        (.obj [("text", .str ""), ("tables", .arr []), ("images", .arr []), ("pages", .arr [])]) ∧
      displayExtractedData
          (.obj [("text", .str ""), ("tables", .arr []), ("images", .arr []), ("pages", .arr [])])
          "contract"
        = .ok (.flat [.textBlock "" false]) := by
  decide

/-- C6 (amended): for a non-empty record that has a non-empty `pages` array or a truthy
`text`, `displayExtractedData` renders the document layout when the record can be read (its
text, page numbers and shown values convert to text, its page entries are not null and
their content is falsy or an array without a null item) and raises a `TypeError`, rendering
nothing, when it cannot.  For every other non-empty record it completes with the flat-record
layout, which holds one node per field that `shouldSkipEditField` does not skip, in field
order: a text block for the key `text`, a row with the title-cased key and the value as text
for any other key. -/
theorem displayExtractedData_layout (fs : List (String × JVal)) (docType : String)
    (hne : fs ≠ []) :
    (((∃ ps, lookupKey fs "pages" = some (.arr ps) ∧ ps ≠ []) ∨
          truthyU (lookupKey fs "text") = true) →
        (extractionOk (.obj fs) = true →
          ∃ ns, displayExtractedData (.obj fs) docType = .ok (.document ns)) ∧
        (extractionOk (.obj fs) = false →
          displayExtractedData (.obj fs) docType = .fail .typeError)) ∧
      (¬ ((∃ ps, lookupKey fs "pages" = some (.arr ps) ∧ ps ≠ []) ∨
          truthyU (lookupKey fs "text") = true) →
        displayExtractedData (.obj fs) docType
          = .ok (.flat ((fs.filter (fun kv => !shouldSkipEditField kv.1 kv.2)).map
              (fun kv =>
                if kv.1 = "text" then Node.textBlock (textContent kv.2) (isArabic kv.2)
                else Node.fieldRow (formatKey kv.1) (textContent kv.2) (isArabic kv.2)
                  false)))) := by
  rw [← documentTest_iff, displayExtractedData_obj fs docType hne]
  constructor
  · intro hdoc
    rw [if_pos hdoc]
    constructor
    · intro hok; rw [if_pos hok]; exact ⟨_, rfl⟩
    · intro hok
      rw [if_neg (by rw [hok]; exact Bool.false_ne_true)]
  · intro hdoc
    rw [if_neg hdoc]
    rfl

/-- Witness of C6 (amended): a paginated record and an identity-card record with a skipped
field. -/
theorem displayExtractedData_layout_witness :
    (∃ ns, displayExtractedData
        (.obj [("text", .str "Hello"), ("pages", .arr [.obj [("page_number", .num 1),
          ("content", .arr [.obj [("type", .str "text"), ("value", .str "Hello")]])]])])
        "contract" = .ok (.document ns)) ∧
      displayExtractedData (.obj [("_id", .str "r1"), ("name", .str "Ali")]) "cin"
        = .ok (.flat [.fieldRow "Name" "Ali" false false]) :=
  ⟨((displayExtractedData_layout
      [("text", .str "Hello"), ("pages", .arr [.obj [("page_number", .num 1),
        ("content", .arr [.obj [("type", .str "text"), ("value", .str "Hello")]])]])]
      "contract" (by simp)).1 (Or.inr (by decide))).1 (by decide),
    ((displayExtractedData_layout [("_id", .str "r1"), ("name", .str "Ali")] "cin"
      (by simp)).2 (by simp [lookupKey, truthyU])).trans (by decide)⟩

/-- C7 (counterexample): the first and the third page of this record have a `content`
field (an empty string, null), yet only the second page gets a block. -/
theorem displayExtractedData_falsy_content_no_block :
    hasContentField (.obj [("page_number", .num 1), ("content", .str "")]) = true ∧
      hasContentField (.obj [("page_number", .num 3), ("content", .null)]) = true ∧
      displayExtractedData
          (.obj [("pages", .arr [
            .obj [("page_number", .num 1), ("content", .str "")],
            .obj [("page_number", .num 2), ("content", .arr [
              .obj [("type", .str "text"), ("value", .str "second")]])],
            .obj [("page_number", .num 3), ("content", .null)]])]) "contract"
        = .ok (.document [.pageBlock "Page 2:" ["second"]]) := by
  decide

/-- C7 (amended): for a record with a non-empty `pages` array, `displayExtractedData`
raises a `TypeError` and renders nothing when the record cannot be read; when it can, it
renders the document layout: the truthy top-level text, if any, then one titled block per
page whose `content` is truthy, in page order.  A page that lacks `content` has no truthy
content, so it gets no block.  The block of a page is titled `Page <page_number>:` (`?` for
a falsy number) and holds exactly the values of the text-type items of the page with a
truthy value, as text and in order, a string value verbatim; table and image items add
nothing. -/
theorem displayExtractedData_page_blocks (fs : List (String × JVal)) (docType : String)
    (ps : List JVal) (hpages : lookupKey fs "pages" = some (.arr ps)) (hne : ps ≠ []) :
    displayExtractedData (.obj fs) docType
        = (if extractionOk (.obj fs) then
            .ok (.document (freeText (.obj fs)
              ++ (ps.filter (fun p => truthyU (getU p "content"))).map pageBlockOf))
          else .fail .typeError) ∧
      (∀ p, hasContentField p = false → truthyU (getU p "content") = false) ∧
      (∀ p, pageBlockOf p
        = .pageBlock ("Page " ++ (orElse (getU p "page_number") (.str "?")).toStr ++ ":")
            (((contentItems p).filter
              (fun item => decide (getU item "type" = some (.str "text"))
                && truthyU (getU item "value"))).map itemText)) ∧
      (∀ item s, getU item "value" = some (.str s) → itemText item = s) ∧
      (∀ item v, getU item "value" = some v → itemText item = v.toStr) := by
  have hfs : fs ≠ [] := by
    intro e; subst e; simp [lookupKey] at hpages
  have hdoc : documentTest (.obj fs) = true :=
    (documentTest_iff fs).mpr (Or.inl ⟨ps, hpages, hne⟩)
  refine ⟨?_, ?_, fun p => rfl, ?_, ?_⟩
  · rw [displayExtractedData_obj fs docType hfs, if_pos hdoc, hpages]
  · intro p hp
    unfold hasContentField at hp
    cases hc : getU p "content" with
    | none => rfl
    | some c => simp [hc] at hp
  · intro item s hv
    simp [itemText, hv, JVal.toStr]
  · intro item v hv
    simp [itemText, hv]

/-- Witness of C7 (amended): two pages, the second without `content`; a table item between
two text items. -/
theorem displayExtractedData_page_blocks_witness :
    displayExtractedData
        (.obj [("pages", .arr [
          .obj [("page_number", .num 1), ("content", .arr [
            .obj [("type", .str "text"), ("value", .str "first")],
            .obj [("type", .str "table"), ("rows", .arr [])],
            .obj [("type", .str "text"), ("value", .str "second")]])],
          .obj [("page_number", .num 2)]])]) "contract"
      = .ok (.document [.pageBlock "Page 1:" ["first", "second"]]) :=
  (displayExtractedData_page_blocks _ "contract"
    [.obj [("page_number", .num 1), ("content", .arr [
        .obj [("type", .str "text"), ("value", .str "first")],
        .obj [("type", .str "table"), ("rows", .arr [])],
        .obj [("type", .str "text"), ("value", .str "second")]])],
      .obj [("page_number", .num 2)]]
    (by decide) (by simp)).1.trans (by decide)

/-- C8 (failing input): in the flat-record layout the field `address`, whose value is a
nested object and whose key is not denylisted, gets no row; only `name` is rendered. -/
theorem displayExtractedData_nested_field_not_rendered :
    shouldSkipEditField "address" (.obj [("city", .str "Tunis")]) = true ∧
      displayExtractedData
          (.obj [("name", .str "Ali"), ("address", .obj [("city", .str "Tunis")])]) "cin"
        = .ok (.flat [.fieldRow "Name" "Ali" false false]) := by
  decide

/-! ## Lemmas on the verification renderer -/

theorem joinParts_strings (strs : List String) : joinParts (strs.map JVal.str) = strs := by
  induction strs with
  | nil => rfl
  | cons t strs ih => simp [JVal.joinParts, JVal.toStr, ih]

theorem anyRaises_strings (strs : List String) : anyRaises (strs.map JVal.str) = false := by
  induction strs with
  | nil => rfl
  | cons t strs ih => simp [JVal.anyRaises, JVal.toStringRaises, ih]

theorem checkRow_eq (name : String) (cd : JVal) :
    checkRow name cd
      = if entryOk (name, cd) then .ok (checkRowOf name cd) else .fail .typeError := by
  by_cases hn : cd = .null
  · subst hn; rfl
  · have hr : checkRow name cd
        = if (orElse (getU cd "details") (.str "No details available")).toStringRaises
              || (orElse (getU cd "score") (.num 0)).toStringRaises then .fail .typeError
          else .ok (checkRowOf name cd) := by
      cases cd <;> first | exact absurd rfl hn | rfl
    rw [hr]
    unfold entryOk
    by_cases hb : ((orElse (getU cd "details") (.str "No details available")).toStringRaises
        || (orElse (getU cd "score") (.num 0)).toStringRaises) = true
    · simp only [hb, if_true, Bool.not_true, Bool.and_false, Bool.false_eq_true, if_false]
    · have hb2 : ((orElse (getU cd "details") (.str "No details available")).toStringRaises
          || (orElse (getU cd "score") (.num 0)).toStringRaises) = false := by
        simpa using hb
      simp [hb2, hn]

theorem checkRows_eq (es : List (String × JVal)) :
    checkRows es
      = if es.all entryOk then .ok (es.map (fun e => checkRowOf e.1 e.2))
        else .fail .typeError := by
  induction es with
  | nil => rfl
  | cons e rest ih =>
    obtain ⟨name, cd⟩ := e
    simp only [checkRows, checkRow_eq, ih]
    by_cases he : entryOk (name, cd) = true
    · by_cases hall : rest.all entryOk = true
      · simp [he, hall]
      · simp [he, hall]
    · simp [he]

theorem objectEntries_of_falsy {c : JVal} (h : c.truthy = false) : objectEntries c = [] := by
  cases c with
  | str t =>
    have ht : t = "" := by simpa [JVal.truthy] using h
    subst ht
    rfl
  | arr xs => simp [JVal.truthy] at h
  | obj gs => simp [JVal.truthy] at h
  | _ => rfl

theorem checksBlocks_obj (fs : List (String × JVal)) :
    checksBlocks (.obj fs)
      = if (checkEntries fs).isEmpty then ⟨[], none⟩
        else if (checkEntries fs).all entryOk then
          ⟨[.checksTitle, .checksList ((checkEntries fs).map (fun e => checkRowOf e.1 e.2))],
            none⟩
        else ⟨[.checksTitle], some .typeError⟩ := by
  unfold checksBlocks checkEntries
  simp only [getU_obj]
  cases hc : lookupKey fs "checks" with
  | none => simp
  | some c =>
    by_cases ht : c.truthy = true
    · cases hoe : objectEntries c with
      | nil => simp [ht, objectKeys, hoe]
      | cons e es =>
        simp only [ht, objectKeys, hoe, List.map_cons, List.isEmpty_cons, Bool.not_false,
          Bool.and_self, if_true, Bool.false_eq_true, if_false, checkRows_eq]
        by_cases hall : (e :: es).all entryOk = true
        · rw [if_pos hall, if_pos hall]
        · rw [if_neg hall, if_neg hall]
    · have hf : c.truthy = false := by simpa using ht
      simp [hf, objectEntries_of_falsy hf]

theorem errorBlocks_fault (results : JVal) :
    (errorBlocks results).fault = if errorOk results then none else some .typeError := by
  unfold errorBlocks errorOk
  cases he : getU results "error" with
  | none => simp [truthyU]
  | some e =>
    by_cases h1 : e.truthy = true
    · by_cases h2 : e.toStringRaises = true
      · simp [truthyU, raisesU, h1, h2]
      · simp [truthyU, raisesU, h1, h2]
    · simp [truthyU, h1]

theorem errorBlocks_blocks (results : JVal) :
    ∀ b ∈ (errorBlocks results).blocks, ∃ html, b = .errorAlert html := by
  unfold errorBlocks
  cases he : getU results "error" with
  | none => simp
  | some e =>
    by_cases h1 : e.truthy = true
    · by_cases h2 : e.toStringRaises = true
      · simp [h1, h2]
      · simp [h1, h2]
    · simp [h1]

theorem shownRows_errorBlocks (results : JVal) :
    shownRows (errorBlocks results).blocks = [] := by
  unfold errorBlocks
  cases he : getU results "error" with
  | none => rfl
  | some e =>
    by_cases h1 : e.truthy = true
    · by_cases h2 : e.toStringRaises = true
      · simp [h1, h2, shownRows]
      · simp [h1, h2, shownRows]
    · simp [h1, shownRows]

theorem truthy_orElse_false (a : Option JVal) :
    (orElse a (.bool false)).truthy = truthyU a := by
  cases a with
  | none => rfl
  | some v =>
    simp only [orElse, truthyU]
    by_cases h : v.truthy = true
    · rw [if_pos h]
    · rw [if_neg h]
      simpa [JVal.truthy] using (Bool.eq_false_iff.mpr h).symm

/-- The display of a structured result.  When the score card cannot be built nothing is
shown.  Else the score card comes first; when an entry of `checks` cannot be read only the
title of the checks follows it; else the checks (a title and one list with a row per entry,
when there are entries) and the error banner follow. -/
theorem displayVerificationResults_obj (fs : List (String × JVal)) :
    displayVerificationResults (.obj fs)
      = if scoreCardRaises (.obj fs) then ⟨[], some .typeError⟩
        else if (checkEntries fs).all entryOk then
          ⟨scoreCardOf (.obj fs) ::
              ((if (checkEntries fs).isEmpty then []
                else [.checksTitle,
                  .checksList ((checkEntries fs).map (fun e => checkRowOf e.1 e.2))])
                ++ (errorBlocks (.obj fs)).blocks), (errorBlocks (.obj fs)).fault⟩
        else ⟨[scoreCardOf (.obj fs), .checksTitle], some .typeError⟩ := by
  simp only [displayVerificationResults, checksBlocks_obj]
  by_cases hs : scoreCardRaises (.obj fs) = true
  · simp [hs]
  · by_cases hemp : (checkEntries fs).isEmpty = true
    · have hnil : checkEntries fs = [] := by simpa using hemp
      simp [hs, hnil]
    · by_cases hall : (checkEntries fs).all entryOk = true
      · simp [hs, hemp, hall]
      · simp [hs, hemp, hall]

theorem displayVerificationResults_fault (v : JVal) :
    (displayVerificationResults v).fault
      = if verificationOk v then none else some .typeError := by
  cases v with
  | arr xs =>
    by_cases h : anyRaises xs = true
    · simp [displayVerificationResults, verificationOk, h]
    · simp [displayVerificationResults, verificationOk, h]
  | obj fs =>
    rw [displayVerificationResults_obj]
    unfold verificationOk
    by_cases hcard : scoreCardRaises (.obj fs) = true
    · simp [hcard]
    · by_cases hall : (checkEntries fs).all entryOk = true
      · by_cases herr : errorOk (.obj fs) = true
        · simp [hcard, hall, herr, errorBlocks_fault]
        · simp [hcard, hall, herr, errorBlocks_fault]
      · simp [hcard, hall]
  | null => rfl
  | bool b => rfl
  | num n => rfl
  | str t => rfl

/-! ## C9 and C10: the verification renderer and tolerance of partial data -/

/-- C9 (counterexample): the structured object has two `checks` entries, the second of them
null; the score card is shown, the renderer raises a `TypeError` and no check row at all is
shown, not even for the first entry. -/
theorem displayVerificationResults_null_entry_no_rows :
    (checkEntries [("overall_score", .num 87), ("is_authentic", .bool true),
        ("confidence_level", .str "high"),
        ("checks", .obj [("signature",
          .obj [("passed", .bool true), ("score", .num 10), ("details", .str "ok")]),
          ("stamp", .null)])]).length = 2 ∧
      displayVerificationResults
          (.obj [("overall_score", .num 87), ("is_authentic", .bool true),
            ("confidence_level", .str "high"),
            ("checks", .obj [("signature",
              .obj [("passed", .bool true), ("score", .num 10), ("details", .str "ok")]),
              ("stamp", .null)])])
        = ⟨[.scoreCard "✅" "Authentic" "87%" "Confidence: high", .checksTitle],
            some .typeError⟩ := by
  decide

/-- C9 (amended): `displayVerificationResults` renders by the shape of its input.  A list of
strings gives exactly one warning block with the strings in order.  A structured object that
can be read (score, confidence level, details and error convert to text, no entry of
`checks` is null) gives the score card (`<overall_score>%`, Authentic or Not Authentic by
`is_authentic`, the confidence level, with 0, false and "low" for what is missing or falsy)
followed by nothing but a title, one row per entry of `checks` in order (`<score> pts`, with
false and 0 for what is missing or falsy) and the error banner.  A structured object that
cannot be read makes the renderer raise a `TypeError`, and when it is an entry of `checks`
that cannot be read, no check row is shown.  Any other input gives the notice only.  The
two inputs of the claim, the all-defaults input and an input with a fractional score are
evaluated. -/
theorem displayVerificationResults_by_shape :
    (∀ strs : List String,
      displayVerificationResults (.arr (strs.map JVal.str))
        = ⟨[.warning ("<strong>⚠️ Verification Error:</strong><br>"
            ++ String.intercalate "<br>" strs)], none⟩) ∧
    (∀ fs : List (String × JVal), verificationOk (.obj fs) = true →
      ∃ rest,
        displayVerificationResults (.obj fs)
          = ⟨.scoreCard
              (if truthyU (lookupKey fs "is_authentic") then "✅" else "❌")
              (if truthyU (lookupKey fs "is_authentic") then "Authentic" else "Not Authentic")
              ((orElse (lookupKey fs "overall_score") (.num 0)).toStr ++ "%")
              ("Confidence: " ++ (orElse (lookupKey fs "confidence_level") (.str "low")).toStr)
              :: rest, none⟩ ∧
        shownRows rest = (checkEntries fs).map (fun e => checkRowOf e.1 e.2) ∧
        (∀ b ∈ rest, b = .checksTitle ∨ (∃ rows, b = .checksList rows) ∨
          ∃ html, b = .errorAlert html)) ∧
    (∀ fs : List (String × JVal), verificationOk (.obj fs) = false →
      (displayVerificationResults (.obj fs)).fault = some .typeError) ∧
    (∀ fs : List (String × JVal), (checkEntries fs).all entryOk = false →
      shownRows (displayVerificationResults (.obj fs)).blocks = []) ∧
    (∀ (name : String) (checkData : JVal),
      (checkRowOf name checkData).points
          = (orElse (getU checkData "score") (.num 0)).toStr ++ " pts" ∧
        (checkRowOf name checkData).name = formatKey name ∧
        (checkRowOf name checkData).icon
          = if truthyU (getU checkData "passed") then "✅" else "❌") ∧
    (∀ v : JVal, v.isArray = false → (∀ fs, v ≠ .obj fs) →
      displayVerificationResults v = ⟨[.notice], none⟩) ∧
    displayVerificationResults
        (.obj [("overall_score", .num 87), ("is_authentic", .bool true),
          ("confidence_level", .str "high"),
          ("checks", .obj [("signature",
            .obj [("passed", .bool true), ("score", .num 10), ("details", .str "ok")])])])
      = ⟨[.scoreCard "✅" "Authentic" "87%" "Confidence: high", .checksTitle,
          .checksList [⟨true, "✅", "Signature", "ok", "bg-success", "10 pts"⟩]], none⟩ ∧
    displayVerificationResults (.arr [.str "field X missing", .str "checksum mismatch"])
      = ⟨[.warning
          "<strong>⚠️ Verification Error:</strong><br>field X missing<br>checksum mismatch"],
          none⟩ ∧
    displayVerificationResults (.obj [("checks", .obj [("signature", .obj [])])])
      = ⟨[.scoreCard "❌" "Not Authentic" "0%" "Confidence: low", .checksTitle,
          .checksList [⟨false, "❌", "Signature", "No details available", "bg-danger",
            "0 pts"⟩]], none⟩ ∧
    displayVerificationResults (.obj [("overall_score", .num ⟨"87.5"⟩)])
      = ⟨[.scoreCard "❌" "Not Authentic" "87.5%" "Confidence: low"], none⟩ := by
  refine ⟨?_, ?_, ?_, ?_, ?_, ?_, by decide, by decide, by decide, by decide⟩
  · intro strs
    simp [displayVerificationResults, joinParts_strings, anyRaises_strings]
  · intro fs hok
    simp only [verificationOk, Bool.and_eq_true, Bool.not_eq_true'] at hok
    obtain ⟨⟨hcard, hall⟩, herr⟩ := hok
    rw [displayVerificationResults_obj, hcard, if_neg Bool.false_ne_true, if_pos hall,
      errorBlocks_fault, if_pos herr]
    refine ⟨(if (checkEntries fs).isEmpty then []
        else [.checksTitle, .checksList ((checkEntries fs).map (fun e => checkRowOf e.1 e.2))])
        ++ (errorBlocks (.obj fs)).blocks, ?_, ?_, ?_⟩
    · simp only [scoreCardOf, getU_obj, truthy_orElse_false]
    · have happ : ∀ as bs : List VBlock,
          shownRows (as ++ bs) = shownRows as ++ shownRows bs := by
        intro as bs
        induction as with
        | nil => rfl
        | cons a as ih => cases a <;> simp [shownRows, ih]
      rw [happ, shownRows_errorBlocks]
      by_cases hemp : (checkEntries fs).isEmpty = true
      · have : checkEntries fs = [] := by simpa using hemp
        simp [this, shownRows]
      · simp [hemp, shownRows]
    · intro b hb
      simp only [List.mem_append] at hb
      rcases hb with hb | hb
      · by_cases hemp : (checkEntries fs).isEmpty = true
        · simp [hemp] at hb
        · simp only [hemp, Bool.false_eq_true, if_false, List.mem_cons, List.mem_singleton,
            List.not_mem_nil, or_false] at hb
          rcases hb with hb | hb
          · exact Or.inl hb
          · exact Or.inr (Or.inl ⟨_, hb⟩)
      · exact Or.inr (Or.inr (errorBlocks_blocks _ b hb))
  · intro fs hbad
    rw [displayVerificationResults_fault, hbad]
    rfl
  · intro fs hall
    rw [displayVerificationResults_obj]
    by_cases hcard : scoreCardRaises (.obj fs) = true
    · rw [if_pos hcard]; rfl
    · rw [if_neg hcard, if_neg (by rw [hall]; exact Bool.false_ne_true)]; rfl
  · intro name checkData
    simp [checkRowOf, truthy_orElse_false]
  · intro v harr hobj
    cases v with
    | arr xs => simp [JVal.isArray] at harr
    | obj fs => exact absurd rfl (hobj fs)
    | _ => rfl

/-- Witness of C9 (amended) on the structured input of the claim. -/
theorem displayVerificationResults_by_shape_witness :
    verificationOk (.obj [("overall_score", .num 87), ("is_authentic", .bool true),
        ("confidence_level", .str "high"),
        ("checks", .obj [("signature",
          .obj [("passed", .bool true), ("score", .num 10), ("details", .str "ok")])])])
      = true ∧
    ∃ rest,
      displayVerificationResults
          (.obj [("overall_score", .num 87), ("is_authentic", .bool true),
            ("confidence_level", .str "high"),
            ("checks", .obj [("signature",
              .obj [("passed", .bool true), ("score", .num 10), ("details", .str "ok")])])])
        = ⟨.scoreCard "✅" "Authentic" "87%" "Confidence: high" :: rest, none⟩ ∧
      (shownRows rest).map CheckRow.points = ["10 pts"] :=
  ⟨by decide,
    (displayVerificationResults_by_shape.2.1
      [("overall_score", .num 87), ("is_authentic", .bool true),
        ("confidence_level", .str "high"),
        ("checks", .obj [("signature",
          .obj [("passed", .bool true), ("score", .num 10), ("details", .str "ok")])])]
      (by decide)).imp (fun _ h => ⟨h.1, by rw [h.2.1]; decide⟩)⟩

/-- C10 (counterexample): a `checks` entry that is null makes `displayVerificationResults`
raise a `TypeError`, and a `pages` entry that is null, or whose `content` is a string, makes
`displayExtractedData` raise a `TypeError`. -/
theorem rendering_raises_on_malformed_entry :
    displayVerificationResults
        (.obj [("overall_score", .num 87), ("checks", .obj [("signature", .null)])])
      = ⟨[.scoreCard "❌" "Not Authentic" "87%" "Confidence: low", .checksTitle],
          some .typeError⟩ ∧
    displayExtractedData (.obj [("pages", .arr [.null])]) "contract" = .fail .typeError ∧
    displayExtractedData
        (.obj [("pages", .arr [.obj [("page_number", .num 1), ("content", .str "text")]])])
        "contract"
      = .fail .typeError := by
  decide

/-- C10 (amended): `displayVerificationResults` completes without raising exactly when the
result can be rendered: it is an array none of whose elements raises on conversion to text,
or an object whose score and confidence level convert to text, none of whose `checks`
entries is null or has details or a score that do not convert, and whose `error` is falsy or
converts, or a primitive; otherwise it raises a `TypeError`.  `displayExtractedData`
completes without raising on a JSON object exactly when the `text` of the record is falsy or
converts to text and every entry of its `pages` array is not null and has a `content` that
is absent, falsy, or an array without a null item, all of whose shown text values, and the
page number, convert to text; otherwise it raises a `TypeError`.  Conversion to text raises
exactly on an object that owns a member `toString` and on an array with such an element. -/
theorem rendering_completes_iff :
    (∀ v : JVal, ((displayVerificationResults v).fault = none ↔ verificationOk v = true) ∧
      ((displayVerificationResults v).fault ≠ none →
        (displayVerificationResults v).fault = some .typeError)) ∧
    (∀ (fs : List (String × JVal)) (docType : String),
      ((∃ r, displayExtractedData (.obj fs) docType = .ok r)
        ↔ extractionOk (.obj fs) = true) ∧
      (extractionOk (.obj fs) = false →
        displayExtractedData (.obj fs) docType = .fail .typeError)) := by
  constructor
  · intro v
    rw [displayVerificationResults_fault]
    by_cases h : verificationOk v = true
    · simp [h]
    · simp [h]
  · intro fs docType
    by_cases hfs : fs = []
    · subst hfs
      simp [displayExtractedData, objectKeys, objectEntries, extractionOk, textOk, pagesOk,
        getU, lookupKey, truthyU]
    · rw [displayExtractedData_obj fs docType hfs]
      by_cases hd : documentTest (.obj fs) = true
      · rw [if_pos hd]
        by_cases hok : extractionOk (.obj fs) = true
        · simp [hok]
        · simp [hok]
      · rw [if_neg hd]
        have hok : extractionOk (.obj fs) = true := by
          have hnot := (not_congr (documentTest_iff fs)).mp hd
          have htext : truthyU (lookupKey fs "text") = false := by
            cases ht : truthyU (lookupKey fs "text") with
            | false => rfl
            | true => exact absurd (Or.inr ht) hnot
          unfold extractionOk textOk pagesOk
          simp only [getU_obj, htext, Bool.false_and, Bool.not_false, Bool.true_and]
          cases hp : lookupKey fs "pages" with
          | none => rfl
          | some p =>
            cases p with
            | arr ps =>
              have hps : ps = [] := by
                by_contra hne
                exact hnot (Or.inl ⟨ps, hp, hne⟩)
              subst hps
              rfl
            | _ => rfl
        simp [hok]

/-! ## C11: normalisation of the upload response -/

theorem normalizeContent_of_ne_null {data : JVal} (docType : String) (h : data ≠ .null) :
    normalizeContent data docType
      = if !(contentCandidate data docType).truthy
            || !(contentCandidate data docType).typeofObject
        then .ok (.obj [])
        else .ok (contentCandidate data docType) := by
  cases data <;> first | exact absurd rfl h | rfl

theorem showExtracted_session {s s3 : Ui} {data : JVal} {docType : String}
    {fault : Option Fault} (h : showExtracted s data docType = (s3, fault)) :
    s3.editable = s.editable ∧ s3.editableDocType = s.editableDocType ∧
      s3.recordId = s.recordId := by
  unfold showExtracted at h
  cases hd : displayExtractedData data docType with
  | ok r =>
    rw [hd] at h
    have h1 := (Prod.mk.inj h).1
    subst h1
    exact ⟨rfl, rfl, rfl⟩
  | fail f =>
    rw [hd] at h
    have h1 := (Prod.mk.inj h).1
    subst h1
    exact ⟨rfl, rfl, rfl⟩

/-- When the logging of the response completes, the second `then` callback stores the
normalised content, the mode and the record identifier in the edit session. -/
theorem onParsed_session (docType : String) (s : Ui) (data content : JVal)
    (hlog : logResponse data = .ok ()) (hnorm : normalizeContent data docType = .ok content) :
    (onParsed docType s data).1.editable = content ∧
      (onParsed docType s data).1.editableDocType = some docType ∧
      (onParsed docType s data).1.recordId = orElse (getU data "record_id") .null := by
  unfold onParsed
  simp only [hlog, hnorm]
  split
  · next s3 f heq => exact showExtracted_session heq
  · next s3 heq =>
    have hs := showExtracted_session heq
    split <;> exact hs

theorem orElse_of_falsy {a : Option JVal} (b : JVal) (h : truthyU a = false) :
    orElse a b = b := by
  cases a with
  | none => rfl
  | some v =>
    have hv : v.truthy = false := h
    simp [orElse, hv]

theorem orElse_of_truthy {v : JVal} (b : JVal) (h : v.truthy = true) :
    orElse (some v) b = v := by
  simp [orElse, h]

theorem normalizeContent_eq {data : JVal} (docType : String) (h : data ≠ .null) :
    normalizeContent data docType
      = .ok (if (contentCandidate data docType).truthy
              && (contentCandidate data docType).typeofObject
            then contentCandidate data docType else .obj []) := by
  rw [normalizeContent_of_ne_null docType h]
  cases (contentCandidate data docType).truthy <;>
    cases (contentCandidate data docType).typeofObject <;> rfl

/-- C11 (counterexample): the response has the member `extracted_data`, an empty string,
and the member `extracted_text`, a record.  In mode `cin` the normalised result is the
record of `extracted_text`, where the wording (`extracted_data` when present, a candidate
that is not an object replaced by the empty record) gives the empty record.  For the
response `null`, and for a response whose `extracted_data.pages` holds a null entry, the
handler raises a `TypeError` before it normalises: no result is stored. -/
theorem normalizeContent_skips_falsy_member :
    getU (.obj [("extracted_data", .str ""), ("extracted_text", .obj [("name", .str "Ali")])])
        "extracted_data" = some (.str "") ∧
      normalizeContent
          (.obj [("extracted_data", .str ""), ("extracted_text", .obj [("name", .str "Ali")])])
          "cin" = .ok (.obj [("name", .str "Ali")]) ∧
      contentAsWorded
          (.obj [("extracted_data", .str ""), ("extracted_text", .obj [("name", .str "Ali")])])
        = .obj [] ∧
      onParsed "cin" (initialUi "cin") .null = (initialUi "cin", some .typeError) ∧
      onParsed "contract" (initialUi "contract")
          (.obj [("extracted_data", .obj [("pages", .arr [.null])])])
        = (initialUi "contract", some .typeError) := by
  decide

/-- C11 (amended): for every response that is not null and every mode, the normalisation
yields an object or an array.  In contract mode it is the record with `text` (the response's
`text`, the empty string when that is missing or falsy), `tables`, `images` and `pages` (the
response's `extracted_data.pages`, the empty sequence when that is missing or falsy).  In
the other modes it is `extracted_data` when that is truthy and an object or array, else
`extracted_text` when that is truthy and an object or array, else the empty record, and a
truthy candidate that is not an object or array is replaced by the empty record.  When the
logging of the response completes, this result is what the edit session holds; when the
logging raises, the handler ends there and the page is as it was. -/
theorem normalizeContent_result (data : JVal) (docType : String) (hdata : data ≠ .null) :
    ∃ content, normalizeContent data docType = .ok content ∧
      (content.isArray = true ∨ ∃ fs, content = .obj fs) ∧
      (docType = "contract" →
        content = .obj [("text", orElse (getU data "text") (.str "")),
          ("tables", orElse (getU data "tables") (.arr [])),
          ("images", orElse (getU data "images") (.arr [])),
          ("pages", orElse (extractedPages data) (.arr []))] ∧
        (∀ t, getU data "text" = some (.str t) → getU content "text" = some (.str t)) ∧
        (getU data "text" = none → getU content "text" = some (.str "")) ∧
        (∀ ps, extractedPages data = some (.arr ps) → getU content "pages" = some (.arr ps)) ∧
        (extractedPages data = none → getU content "pages" = some (.arr []))) ∧
      (docType ≠ "contract" →
        (∀ v, getU data "extracted_data" = some v → v.truthy = true →
          v.typeofObject = true → content = v) ∧
        (∀ v, truthyU (getU data "extracted_data") = false →
          getU data "extracted_text" = some v → v.truthy = true →
          v.typeofObject = true → content = v) ∧
        (truthyU (getU data "extracted_data") = false →
          truthyU (getU data "extracted_text") = false → content = .obj []) ∧
        (∀ v, getU data "extracted_data" = some v → v.truthy = true →
          v.typeofObject = false → content = .obj []) ∧
        (∀ v, truthyU (getU data "extracted_data") = false →
          getU data "extracted_text" = some v → v.truthy = true →
          v.typeofObject = false → content = .obj [])) ∧
      (∀ s : Ui, logResponse data = .ok () →
        (onParsed docType s data).1.editable = content ∧
        (onParsed docType s data).1.editableDocType = some docType) ∧
      (∀ (s : Ui) (f : Fault), logResponse data = .fail f →
        onParsed docType s data = (s, some f)) := by
  have hok := normalizeContent_eq docType hdata
  refine ⟨_, hok, ?_, ?_, ?_, ?_, ?_⟩
  · by_cases hobj : ((contentCandidate data docType).truthy
        && (contentCandidate data docType).typeofObject) = true
    · rw [if_pos hobj]
      cases hcc : contentCandidate data docType with
      | arr xs => exact Or.inl rfl
      | obj fs => exact Or.inr ⟨fs, rfl⟩
      | null => simp [hcc, JVal.typeofObject, JVal.truthy] at hobj
      | bool b => simp [hcc, JVal.typeofObject] at hobj
      | num n => simp [hcc, JVal.typeofObject] at hobj
      | str t => simp [hcc, JVal.typeofObject] at hobj
    · rw [if_neg hobj]; exact Or.inr ⟨[], rfl⟩
  · intro hc
    have hcand : contentCandidate data docType
        = .obj [("text", orElse (getU data "text") (.str "")),
          ("tables", orElse (getU data "tables") (.arr [])),
          ("images", orElse (getU data "images") (.arr [])),
          ("pages", orElse (extractedPages data) (.arr []))] := by
      simp [contentCandidate, hc]
    rw [hcand]
    refine ⟨rfl, ?_, ?_, ?_, ?_⟩
    · intro t ht
      by_cases h0 : t = ""
      · subst h0; simp [getU_obj, lookupKey, ht, orElse, JVal.truthy, JVal.typeofObject]
      · simp [getU_obj, lookupKey, ht, orElse, JVal.truthy, JVal.typeofObject, h0]
    · intro ht; simp [getU_obj, lookupKey, ht, orElse, JVal.truthy, JVal.typeofObject]
    · intro ps hp; simp [getU_obj, lookupKey, hp, orElse, JVal.truthy, JVal.typeofObject]
    · intro hp; simp [getU_obj, lookupKey, hp, orElse, JVal.truthy, JVal.typeofObject]
  · intro hc
    have hcand : contentCandidate data docType
        = orElse (getU data "extracted_data")
            (orElse (getU data "extracted_text") (.obj [])) := by
      simp [contentCandidate, hc]
    rw [hcand]
    refine ⟨?_, ?_, ?_, ?_, ?_⟩
    · intro v he hv hty
      rw [he, orElse_of_truthy _ hv]; simp [hv, hty]
    · intro v hed het hv hty
      rw [orElse_of_falsy _ hed, het, orElse_of_truthy _ hv]; simp [hv, hty]
    · intro hed het
      rw [orElse_of_falsy _ hed, orElse_of_falsy _ het]; rfl
    · intro v he hv hty
      rw [he, orElse_of_truthy _ hv]; simp [hty]
    · intro v hed het hv hty
      rw [orElse_of_falsy _ hed, het, orElse_of_truthy _ hv]; simp [hty]
  · intro s hlog
    exact ⟨(onParsed_session docType s data _ hlog hok).1,
      (onParsed_session docType s data _ hlog hok).2.1⟩
  · intro s f hlog
    simp [onParsed, hlog]

/-- Witness of C11 (amended): a contract response without text, and a passport response that has
`extracted_text` only. -/
theorem normalizeContent_result_witness :
    (∃ content,
      normalizeContent
          (.obj [("extracted_data", .obj [("pages", .arr [.obj [("page_number", .num 1)]])])])
          "contract" = .ok content ∧
        getU content "text" = some (.str "") ∧
        getU content "pages" = some (.arr [.obj [("page_number", .num 1)]])) ∧
      ∃ content,
        normalizeContent (.obj [("extracted_text", .obj [("name", .str "Ali")])]) "passport"
          = .ok content ∧
        content = .obj [("name", .str "Ali")] :=
  ⟨(normalizeContent_result
      (.obj [("extracted_data", .obj [("pages", .arr [.obj [("page_number", .num 1)]])])])
      "contract" (by decide)).imp
      (fun _ h => ⟨h.1, (h.2.2.1 rfl).2.2.1 (by decide),
        (h.2.2.1 rfl).2.2.2.1 [.obj [("page_number", .num 1)]] (by decide)⟩),
    (normalizeContent_result (.obj [("extracted_text", .obj [("name", .str "Ali")])])
      "passport" (by decide)).imp
      (fun _ h => ⟨h.1, (h.2.2.2.1 (by decide)).2.1 (.obj [("name", .str "Ali")])
        (by decide) (by decide) (by decide) (by decide)⟩)⟩

/-! ## C12, C13 and C14: upload submission and mode switch -/

/-- C12: in each of the three modes a click on the upload control issues a request exactly
when the files the mode requires are selected.  When they are, exactly one request is added,
a POST of the selected files to the endpoint of the mode, no alert is shown and the busy
state is set.  When one is missing, no request is issued, one alert is shown and the trigger
control is left as it was (enabled, since it could be clicked). -/
theorem clickUpload_validates (s : Ui)
    (hmode : s.docType = "cin" ∨ s.docType = "passport" ∨ s.docType = "contract") :
    (requiredFilesSelected s = true →
      (∃ parts, (clickUpload s).requests
          = s.requests ++ [⟨"POST",
              (if s.docType = "cin" then "/ocr/upload/cin"
                else if s.docType = "passport" then "/ocr/upload/passport"
                else "/ocr/upload/pdf"), .form parts⟩]) ∧
        (clickUpload s).alerts = s.alerts ∧ (clickUpload s).buttonDisabled = true) ∧
    (requiredFilesSelected s = false →
      (clickUpload s).requests = s.requests ∧
        (∃ message, (clickUpload s).alerts = s.alerts ++ [message]) ∧
        (clickUpload s).buttonDisabled = s.buttonDisabled ∧
        (s.buttonDisabled = false → (clickUpload s).buttonDisabled = false)) := by
  rcases hmode with h | h | h
  · cases hf : s.front.head? with
    | none => simp [requiredFilesSelected, clickUpload, h, hf]
    | some f =>
      cases hb : s.back.head? with
      | none => simp [requiredFilesSelected, clickUpload, h, hf, hb]
      | some b => simp [requiredFilesSelected, clickUpload, h, hf, hb, setBusy]
  · cases hf : s.single.head? with
    | none => simp [requiredFilesSelected, clickUpload, h, hf]
    | some f => simp [requiredFilesSelected, clickUpload, h, hf, setBusy]
  · cases hf : s.contract.head? with
    | none => simp [requiredFilesSelected, clickUpload, h, hf]
    | some f => simp [requiredFilesSelected, clickUpload, h, hf, setBusy]

/-- Witness of C12: in mode `cin` with the front face only, and in mode `contract` with a
PDF selected. -/
theorem clickUpload_validates_witness :
    ((clickUpload { initialUi "cin" with front := [⟨"front.png", "image/png"⟩] }).requests
        = (initialUi "cin").requests ∧
      (clickUpload { initialUi "cin" with front := [⟨"front.png", "image/png"⟩] }).buttonDisabled
        = false) ∧
    ∃ parts,
      (clickUpload
          { initialUi "contract" with contract := [⟨"c.pdf", "application/pdf"⟩] }).requests
        = (initialUi "contract").requests ++ [⟨"POST", "/ocr/upload/pdf", .form parts⟩] :=
  ⟨⟨((clickUpload_validates
        { initialUi "cin" with front := [⟨"front.png", "image/png"⟩] } (Or.inl rfl)).2
        (by decide)).1,
      ((clickUpload_validates
        { initialUi "cin" with front := [⟨"front.png", "image/png"⟩] } (Or.inl rfl)).2
        (by decide)).2.2.2 (by decide)⟩,
    ((clickUpload_validates
      { initialUi "contract" with contract := [⟨"c.pdf", "application/pdf"⟩] }
      (Or.inr (Or.inr rfl))).1 (by decide)).1⟩

theorem onUploadSettled_controls (s : Ui) :
    (onUploadSettled s).buttonDisabled = false ∧ (onUploadSettled s).labelShown = true ∧
      (onUploadSettled s).spinnerShown = false :=
  ⟨rfl, rfl, rfl⟩

/-- C13: however an issued upload request settles (rejection, non-success status, body
that is not JSON, or a parsed body, whether or not handling it raises), when the handler
finishes the trigger control is enabled, its label is shown and the busy indicator is hidden;
and for a non-success status exactly one alert is added, whose text holds the status code in
decimal. -/
theorem settleUpload_restores_controls (errText : Fault → String) (docType : String)
    (s : Ui) :
    (∀ o : Settlement,
      (settleUpload errText docType s o).buttonDisabled = false ∧
        (settleUpload errText docType s o).labelShown = true ∧
        (settleUpload errText docType s o).spinnerShown = false) ∧
    (∀ (status : Nat) (statusText : String) (body : Option JVal),
      ¬ (200 ≤ status ∧ status ≤ 299) →
        (settleUpload errText docType s (.response status statusText body)).alerts
          = s.alerts ++ ["Upload failed: HTTP " ++ toString status ++ ": " ++ statusText]) := by
  constructor
  · intro o
    cases o with
    | networkError message => exact onUploadSettled_controls _
    | response status statusText body =>
      simp only [settleUpload]
      by_cases hok : 200 ≤ status ∧ status ≤ 299
      · rw [if_pos hok]
        cases body with
        | none => exact onUploadSettled_controls _
        | some data =>
          simp only
          split <;> exact onUploadSettled_controls _
      · rw [if_neg hok]
        exact onUploadSettled_controls _
  · intro status statusText body hok
    simp only [settleUpload]
    rw [if_neg hok]
    rfl

/-- Witness of C13: the response has status 500. -/
theorem settleUpload_restores_controls_witness :
    ¬ (200 ≤ 500 ∧ 500 ≤ 299) ∧
      (settleUpload (fun _ => "TypeError") "cin" (setBusy (initialUi "cin"))
          (.response 500 "Internal Server Error" none)).alerts
        = ["Upload failed: HTTP 500: Internal Server Error"] ∧
      (settleUpload (fun _ => "TypeError") "cin" (setBusy (initialUi "cin"))
          (.response 500 "Internal Server Error" none)).buttonDisabled = false :=
  ⟨by decide,
    ((settleUpload_restores_controls (fun _ => "TypeError") "cin"
      (setBusy (initialUi "cin"))).2 500 "Internal Server Error" none (by decide)).trans
      (by decide),
    ((settleUpload_restores_controls (fun _ => "TypeError") "cin"
      (setBusy (initialUi "cin"))).1 (.response 500 "Internal Server Error" none)).1⟩

/-- C14: for each of the three modes and every prior state, selecting the mode leaves the
four file inputs, the preview area, the extraction display and the verification display
empty and shows the upload container of the selected mode and no other; selecting the same
mode again changes nothing. -/
theorem selectMode_clears (mode : String) (s : Ui)
    (hmode : mode = "cin" ∨ mode = "passport" ∨ mode = "contract") :
    (selectMode mode s).front = [] ∧ (selectMode mode s).back = [] ∧
      (selectMode mode s).single = [] ∧ (selectMode mode s).contract = [] ∧
      (selectMode mode s).preview = [] ∧ (selectMode mode s).extracted = none ∧
      (selectMode mode s).verification = .blocks [] ∧
      ((selectMode mode s).cinShown = true ↔ mode = "cin") ∧
      ((selectMode mode s).singleShown = true ↔ mode = "passport") ∧
      ((selectMode mode s).contractShown = true ↔ mode = "contract") ∧
      ((selectMode mode s).cinShown = true ∨ (selectMode mode s).singleShown = true ∨
        (selectMode mode s).contractShown = true) ∧
      selectMode mode (selectMode mode s) = selectMode mode s := by
  refine ⟨rfl, rfl, rfl, rfl, rfl, rfl, rfl, ?_, ?_, ?_, ?_, rfl⟩
  · simp [selectMode, updateDocTypeUI, clearPreview]
  · simp [selectMode, updateDocTypeUI, clearPreview]
  · simp [selectMode, updateDocTypeUI, clearPreview]
  · rcases hmode with h | h | h <;> simp [selectMode, updateDocTypeUI, clearPreview, h]

/-- Witness of C14: switching to `passport` from a page that shows a card upload. -/
theorem selectMode_clears_witness :
    (selectMode "passport"
        { initialUi "cin" with
          front := [⟨"f.png", "image/png"⟩]
          preview := [.image ⟨"f.png", "image/png"⟩ 250]
          extracted := some .noData
          verification := .noVerification }).front = [] ∧
      (selectMode "passport"
        { initialUi "cin" with
          front := [⟨"f.png", "image/png"⟩]
          preview := [.image ⟨"f.png", "image/png"⟩ 250]
          extracted := some .noData
          verification := .noVerification }).extracted = none :=
  ⟨(selectMode_clears "passport" _ (Or.inr (Or.inl rfl))).1,
    (selectMode_clears "passport" _ (Or.inr (Or.inl rfl))).2.2.2.2.2.1⟩

/-! ## C15: the edit session across a mode switch -/

/-- C15 (counterexample): after an upload in mode `cin` and a switch to mode `passport`, the
displays are empty but the edit session still holds the card record, its mode and its record
identifier; Edit opens the form of the card record, Export sends the card record, and Save
renders the card record again and sends it to the record of the card. -/
theorem selectMode_keeps_previous_document :
    cinUploadThenPassport.docType = "passport" ∧
      cinUploadThenPassport.extracted = none ∧
      cinUploadThenPassport.editable = .obj [("name", .str "Ali")] ∧
      cinUploadThenPassport.editableDocType = some "cin" ∧
      cinUploadThenPassport.recordId = .str "r1" ∧
      (clickEdit cinUploadThenPassport).form = [.input "name" "Name" "Ali"] ∧
      (clickEdit cinUploadThenPassport).modalShown = true ∧
      prepareDataForExport cinUploadThenPassport
        = .obj [("extracted_data", .obj [("name", .str "Ali")]), ("verification", .null)] ∧
      (clickSave (clickEdit cinUploadThenPassport)).extracted
        = some (.flat [.fieldRow "Name" "Ali" false false]) ∧
      (clickSave (clickEdit cinUploadThenPassport)).requests.getLast?
        = some ⟨"PUT", "/ocr/update/r1",
            .json (.obj [("extracted_data", .obj [("name", .str "Ali")]),
              ("doc_type", .str "cin")])⟩ := by
  decide

theorem clickEdit_form (s : Ui) :
    (clickEdit s).form
      = if s.editable.truthy then (buildEditForm s.editable (s.editableDocType.getD "")).nodes
        else s.form := by
  unfold clickEdit
  by_cases h : s.editable.truthy = true
  · simp only [h, Bool.not_true, Bool.false_eq_true, if_false, if_true]
    cases hb : buildEditForm s.editable (s.editableDocType.getD "") with
    | mk nodes fault => cases fault <;> rfl
  · simp [h]

theorem clickSave_editable (s : Ui) :
    (clickSave s).editable = (applyEdits s.editable (controls s.form)).data := by
  unfold clickSave
  cases h : applyEdits s.editable (controls s.form) with
  | mk d fault =>
    cases fault with
    | some f => rfl
    | none =>
      simp only [showExtracted]
      cases displayExtractedData d (s.editableDocType.getD "") with
      | fail f => rfl
      | ok r =>
        simp only
        split
        · split <;> rfl
        · rfl

/-- C15 (amended): a mode switch empties the four file inputs, the preview area, the
extraction display and the verification display, and leaves the edit session (editable
snapshot, its document mode, record identifier) and the edit form as they were; so Edit,
Export and Save right after the switch work on the same snapshot as before the switch. -/
theorem selectMode_keeps_edit_session (mode : String) (s : Ui) :
    (selectMode mode s).front = [] ∧ (selectMode mode s).back = [] ∧
      (selectMode mode s).single = [] ∧ (selectMode mode s).contract = [] ∧
      (selectMode mode s).preview = [] ∧ (selectMode mode s).extracted = none ∧
      (selectMode mode s).verification = .blocks [] ∧
      (selectMode mode s).editable = s.editable ∧
      (selectMode mode s).editableDocType = s.editableDocType ∧
      (selectMode mode s).recordId = s.recordId ∧
      (selectMode mode s).form = s.form ∧
      (clickEdit (selectMode mode s)).form = (clickEdit s).form ∧
      prepareDataForExport (selectMode mode s) = prepareDataForExport s ∧
      (clickSave (selectMode mode s)).editable = (clickSave s).editable := by
  refine ⟨rfl, rfl, rfl, rfl, rfl, rfl, rfl, rfl, rfl, rfl, rfl, ?_, rfl, ?_⟩
  · rw [clickEdit_form, clickEdit_form]; rfl
  · rw [clickSave_editable, clickSave_editable]; rfl

/-! ## C16 and C17: formatKey -/

/-- C16: `formatKey("date_of_birth")` is `"Date Of Birth"`. -/
theorem formatKey_date_of_birth : formatKey "date_of_birth" = "Date Of Birth" := by
  decide

theorem toUpper_ne_underscore (c : Char) (h : c ≠ '_') : c.toUpper ≠ '_' := by
  unfold Char.toUpper
  simp only
  by_cases hc : c.toNat ≥ 97 ∧ c.toNat ≤ 122
  · rw [if_pos hc]
    intro e
    have h1 : (Char.ofNat (c.toNat - 32)).toNat = 95 := by rw [e]; rfl
    have h2 : 65 ≤ c.toNat - 32 ∧ c.toNat - 32 ≤ 90 := by omega
    generalize c.toNat - 32 = n at h1 h2
    obtain ⟨ha, hb⟩ := h2
    interval_cases n <;> revert h1 <;> decide
  · rw [if_neg hc]
    exact h

theorem capitalizeWords_length (flag : Bool) (cs : List Char) :
    (capitalizeWords flag cs).length = cs.length := by
  induction cs generalizing flag with
  | nil => rfl
  | cons c cs ih => simp [capitalizeWords, ih]

theorem capitalizeWords_no_underscore (flag : Bool) (cs : List Char) (h : '_' ∉ cs) :
    '_' ∉ capitalizeWords flag cs := by
  induction cs generalizing flag with
  | nil => simp [capitalizeWords]
  | cons c cs ih =>
    have hc : c ≠ '_' := fun e => h (by simp [e])
    have hcs : '_' ∉ cs := fun e => h (List.mem_cons_of_mem _ e)
    simp only [capitalizeWords, List.mem_cons, not_or]
    refine ⟨?_, ih _ hcs⟩
    by_cases hw : (isWordChar c && !flag) = true
    · rw [if_pos hw]; exact fun e => toUpper_ne_underscore c hc e.symm
    · rw [if_neg hw]; exact fun e => hc e.symm

theorem capitalizeWords_get (post : List Char) (c : Char) (pre : List Char) :
    ∀ flag : Bool,
      (capitalizeWords flag (pre ++ c :: post))[pre.length]?
        = some (if isWordChar c && !(match pre.getLast? with
            | some p => isWordChar p
            | none => flag) then c.toUpper else c) := by
  induction pre with
  | nil => intro flag; simp [capitalizeWords]
  | cons p pre ih =>
    intro flag
    have hstep : capitalizeWords flag (p :: pre ++ c :: post)
        = (if isWordChar p && !flag then p.toUpper else p)
          :: capitalizeWords (isWordChar p) (pre ++ c :: post) := rfl
    rw [hstep, List.length_cons, List.getElem?_cons_succ, ih (isWordChar p)]
    cases pre with
    | nil => simp
    | cons q rest =>
      rw [List.getLast?_cons_cons]
      cases hl : (q :: rest).getLast? with
      | none => simp at hl
      | some x => rfl

theorem isWordChar_replaced (p : Char) :
    isWordChar (if p = '_' then ' ' else p) = p.isAlphanum := by
  by_cases h : p = '_'
  · subst h; decide
  · simp [isWordChar, h]

/-- C17 (counterexample): in `e-mail` the letter after the hyphen is upper-cased, although
it is not the first character of a run between underscores or spaces: `formatKey` gives
`E-Mail`, title-casing by such runs gives `E-mail`. -/
theorem formatKey_hyphen_capitalizes :
    formatKey "e-mail" = "E-Mail" ∧
      String.mk (titleCaseRuns true "e-mail".data) = "E-mail" := by
  decide

/-- C17 (amended): for every key, `formatKey` returns a string of the same length without
underscore, in which each position holds a space where the key has an underscore, the
upper-case letter where the key has an ASCII letter (or digit, unchanged) that does not
follow an ASCII letter or digit, and the character of the key otherwise. -/
theorem formatKey_characters (key : String) :
    (formatKey key).length = key.length ∧ '_' ∉ (formatKey key).data ∧
      ∀ (pre : List Char) (c : Char) (post : List Char), key.data = pre ++ c :: post →
        (formatKey key).data[pre.length]? = some (titleChar pre.getLast? c) := by
  refine ⟨?_, ?_, ?_⟩
  · show (capitalizeWords false (key.data.map (fun c => if c = '_' then ' ' else c))).length
      = key.data.length
    rw [capitalizeWords_length, List.length_map]
  · apply capitalizeWords_no_underscore
    intro hmem
    obtain ⟨a, _, ha⟩ := List.mem_map.mp hmem
    by_cases h : a = '_'
    · simp [h] at ha
    · simp [h] at ha
  · intro pre c post hkey
    have hmap : key.data.map (fun c => if c = '_' then ' ' else c)
        = pre.map (fun c => if c = '_' then ' ' else c)
          ++ (if c = '_' then ' ' else c) :: post.map (fun c => if c = '_' then ' ' else c) := by
      rw [hkey]; simp
    have hget := capitalizeWords_get (post.map (fun c => if c = '_' then ' ' else c))
      (if c = '_' then ' ' else c) (pre.map (fun c => if c = '_' then ' ' else c)) false
    rw [List.length_map] at hget
    simp only [formatKey, hmap, hget, isWordChar_replaced, Option.some.injEq]
    have hlast : (match (pre.map (fun c => if c = '_' then ' ' else c)).getLast? with
          | some p => isWordChar p
          | none => false)
        = (match pre.getLast? with
          | some b => b.isAlphanum
          | none => false) := by
      rw [List.getLast?_map]
      cases pre.getLast? with
      | none => rfl
      | some b => simp only [Option.map_some']; exact isWordChar_replaced b
    rw [hlast]
    unfold titleChar
    by_cases h : c = '_'
    · subst h
      simp
    · simp [h]

/-- Witness of C17 (amended): the letter after the hyphen of `e-mail`. -/
theorem formatKey_characters_witness :
    "e-mail".data = ['e', '-'] ++ 'm' :: ['a', 'i', 'l'] ∧
      (formatKey "e-mail").data[2]? = some 'M' :=
  ⟨by decide,
    ((formatKey_characters "e-mail").2.2 ['e', '-'] 'm' ['a', 'i', 'l'] (by decide)).trans
      (by decide)⟩

/-! ## C18 and C19: the edit form against the record and the renderer -/

/-- C18 (failing input): for the passport record whose only field is named `user.name`,
`buildEditForm` makes a control whose path does not resolve in the record, and `applyEdits`
run right after it, with the text unchanged or edited, raises a `TypeError` and writes
nothing. -/
theorem applyEdits_dotted_path_fails :
    controls (buildEditForm (.obj [("user.name", .str "Ali")]) "passport").nodes
        = [⟨"user.name", "Ali"⟩] ∧
      lookupPath (.obj [("user.name", .str "Ali")]) (splitPath "user.name") = none ∧
      applyEdits (.obj [("user.name", .str "Ali")])
          (controls (buildEditForm (.obj [("user.name", .str "Ali")]) "passport").nodes)
        = ⟨.obj [("user.name", .str "Ali")], some .typeError⟩ ∧
      applyEdits (.obj [("user.name", .str "Ali")]) [⟨"user.name", "Salah"⟩]
        = ⟨.obj [("user.name", .str "Ali")], some .typeError⟩ := by
  decide

/-- C19 (failing input): for the identity-card record with the fields `text` and `name`,
`buildEditForm` makes a control for each of the two fields, while `displayExtractedData`
takes the document layout and shows the text only: the value of `name` can be edited but is
not displayed. -/
theorem edit_form_shows_more_than_display :
    controls (buildEditForm (.obj [("text", .str "RAW"), ("name", .str "Ali")]) "cin").nodes
        = [⟨"text", "RAW"⟩, ⟨"name", "Ali"⟩] ∧
      displayExtractedData (.obj [("text", .str "RAW"), ("name", .str "Ali")]) "cin"
        = .ok (.document [.pre "RAW"]) := by
  decide

end Dashboard

